import Mathlib

/-!
Verification of the airline-market-demand-analyzer core against its
natural-language specification.

The Python sources are shallowly embedded: dynamic dict-shaped records become
association lists of `Val`, machine floats become exact rationals `ℚ` (with
Python `round(x, n)` modelled as round-half-to-even, as CPython does), `int()`
truncation toward zero, and exceptions become `Except`/`Option`.  Randomized
generators take explicit draw oracles: every `random.randint`/`uniform`/`choice`
call reads one component of the oracle, and theorems quantify over all oracles
whose draws satisfy the documented bounds.  Python z-score comparisons
`abs((p - m)/s) > t` are carried out in ℚ as `(p - m)^2 > t^2 * s^2`, which is
equivalent for `s > 0` and avoids the irrational square root.
-/

set_option maxRecDepth 100000

namespace AirlineMarket

/-! ## Python primitive semantics -/

/-- Python `int(q)` on a float: truncation toward zero. -/
def pyTrunc (q : ℚ) : ℤ :=
  if q < 0 then -⌊-q⌋ else ⌊q⌋

/-- Round-half-to-even to the nearest integer, as CPython `round` does. -/
def roundHalfEven (q : ℚ) : ℤ :=
  let f := ⌊q⌋
  let r := q - (f : ℚ)
  if r < 1/2 then f
  else if 1/2 < r then f + 1
  else if f % 2 = 0 then f else f + 1

/-- Python `round(q, n)`: round-half-to-even at the n-th decimal. -/
def pyRound (q : ℚ) (n : ℕ) : ℚ :=
  (roundHalfEven (q * (10 ^ n : ℕ)) : ℚ) / ((10 ^ n : ℕ) : ℚ)

/-- Python `random.choice(l)` with the chosen index supplied by an oracle;
`none` models the `IndexError` raised on an empty population. -/
def pyChoice {α : Type} (l : List α) (i : ℕ) : Option α :=
  l.get? (i % l.length)

/-- Stable insertion of an element into a list sorted by the boolean key `le`. -/
def insertLe {α : Type} (le : α → α → Bool) (a : α) : List α → List α
  | [] => [a]
  | b :: bs => if le a b then a :: b :: bs else b :: insertLe le a bs

/-- Stable insertion sort by a boolean key, modelling Python's stable sorts. -/
def sortLe {α : Type} (le : α → α → Bool) : List α → List α
  | [] => []
  | a :: as_ => insertLe le a (sortLe le as_)

/-! ## Python value model

Raw provider records are loosely typed Python dicts; `Val` covers the value
shapes the cleaning pipeline can meet and `Record` is the (insertion-ordered)
dict itself. -/

inductive Val : Type where
  | vStr (s : String)
  | vInt (n : ℤ)
  | vFloat (q : ℚ)
  | vBool (b : Bool)
  | vList (l : List Val)
  | vNone

open Val

/-- Python truthiness of a value. -/
def pyTruthy : Val → Bool
  | vStr s => s ≠ ""
  | vInt n => n ≠ 0
  | vFloat q => q ≠ 0
  | vBool b => b
  | vList l => ¬ l.isEmpty
  | vNone => false

abbrev Record := List (String × Val)

/-- First binding of a key in a record. -/
def dictLookup (r : Record) (k : String) : Option Val :=
  match r with
  | [] => Option.none
  | (k', v) :: rest => if k' = k then some v else dictLookup rest k

/-- Python `d[k] = v`: replace the first binding in place, else append. -/
def dictSet (r : Record) (k : String) (v : Val) : Record :=
  match r with
  | [] => [(k, v)]
  | (k', v') :: rest => if k' = k then (k', v) :: rest else (k', v') :: dictSet rest k v

/-- Python `del d[k]`: drop the first binding of the key. -/
def dictDel (r : Record) (k : String) : Record :=
  match r with
  | [] => []
  | (k', v') :: rest => if k' = k then rest else (k', v') :: dictDel rest k

/-- Python `k in d`. -/
def hasKey (r : Record) (k : String) : Bool :=
  (dictLookup r k).isSome

/-- Python `d.get(k, default)`. -/
def dictGetD (r : Record) (k : String) (dflt : Val) : Val :=
  (dictLookup r k).getD dflt

/-! ## String helpers mirroring the Python `str` methods used by the cleaner -/

/-- Python `str.strip()` (whitespace at both ends). -/
def pyStrip (s : String) : String :=
  String.mk ((s.toList.dropWhile Char.isWhitespace).reverse.dropWhile Char.isWhitespace).reverse

/-- Python `str.upper()` (ASCII fragment). -/
def pyUpper (s : String) : String :=
  String.mk (s.toList.map Char.toUpper)

/-- Rendering of a rational that stands for a Python float (used only inside
synthesized id strings, never validated; `repr` niceties are irrelevant here). -/
def floatRepr (q : ℚ) : String :=
  if q.den = 1 then toString q.num ++ ".0" else toString q.num ++ "/" ++ toString q.den

/-- Python `str(v)`.  List contents are rendered without the quoting `repr`
adds; every use in the source either feeds truthiness/`isalpha` validation
(where only the bracket characters matter) or an id string no theorem inspects. -/
def pyStr : Val → String
  | vStr s => s
  | vInt n => toString n
  | vFloat q => floatRepr q
  | vBool b => if b then "True" else "False"
  | vNone => "None"
  | vList l => "[" ++ String.intercalate ", " (l.map fun v =>
      match v with
      | vStr s => s
      | vInt n => toString n
      | vFloat q => floatRepr q
      | vBool b => if b then "True" else "False"
      | vNone => "None"
      | vList _ => "[..]") ++ "]"

/-- Python `sep.join(parts)`: `TypeError` (modelled as `Except.error`) when some
part is not a string. -/
def pyJoin (sep : String) : List Val → Except Unit String
  | [] => .ok ""
  | [vStr s] => .ok s
  | vStr s :: rest =>
    match pyJoin sep rest with
    | .ok tail => .ok (s ++ sep ++ tail)
    | .error e => .error e
  | _ => .error ()

/-! ## Calendar arithmetic (proleptic Gregorian, Hinnant's algorithms) -/

/-- Day number of a civil date relative to 1970-01-01. -/
def daysFromCivil (y m d : ℤ) : ℤ :=
  let y' := if m ≤ 2 then y - 1 else y
  let era := (if 0 ≤ y' then y' else y' - 399) / 400
  let yoe := y' - era * 400
  let mp := (m + 9) % 12
  let doy := (153 * mp + 2) / 5 + d - 1
  let doe := yoe * 365 + yoe / 4 - yoe / 100 + doy
  era * 146097 + doe - 719468

/-- Civil date `(y, m, d)` of a day number relative to 1970-01-01. -/
def civilFromDays (z0 : ℤ) : ℤ × ℤ × ℤ :=
  let z := z0 + 719468
  let era := (if 0 ≤ z then z else z - 146096) / 146097
  let doe := z - era * 146097
  let yoe := (doe - doe / 1460 + doe / 36524 - doe / 146096) / 365
  let y := yoe + era * 400
  let doy := doe - (365 * yoe + yoe / 4 - yoe / 100)
  let mp := (5 * doy + 2) / 153
  let d := doy - (153 * mp + 2) / 5 + 1
  let m := if mp < 10 then mp + 3 else mp - 9
  (if m ≤ 2 then y + 1 else y, m, d)

/-- Number of days in a month of the proleptic Gregorian calendar. -/
def daysInMonth (y m : ℤ) : ℤ :=
  if m = 2 then
    if y % 4 = 0 ∧ (y % 100 ≠ 0 ∨ y % 400 = 0) then 29 else 28
  else if m = 4 ∨ m = 6 ∨ m = 9 ∨ m = 11 then 30
  else 31

/-- Python `weekday()` (Monday = 0) of a day number; 1970-01-01 was a Thursday. -/
def pyWeekday (day : ℤ) : ℤ :=
  (day + 3) % 7

/-! ## ISO-8601 timestamps

`dateutil.parser.parse`/`isoparse` are modelled on the strict
`YYYY-MM-DDTHH:MM:SS` grammar (no zone, no fraction): within it the Python
parsers accept exactly the calendar-valid strings and `isoformat()` returns the
input unchanged; outside it the model raises (`none`), as the parsers do on the
malformed inputs the theorems use.  Timestamps are seconds since the epoch. -/

/-- Numeric value of an ASCII digit. -/
def digitVal (c : Char) : ℤ :=
  (c.toNat : ℤ) - 48

/-- Parse a strict `YYYY-MM-DDTHH:MM:SS` string to epoch seconds. -/
def pyParseIsoDT (s : String) : Option ℤ :=
  match s.toList with
  | [y1, y2, y3, y4, '-', m1, m2, '-', d1, d2, 'T', h1, h2, ':', n1, n2, ':', s1, s2] =>
    if ([y1, y2, y3, y4, m1, m2, d1, d2, h1, h2, n1, n2, s1, s2].all Char.isDigit) then
      let y := 1000 * digitVal y1 + 100 * digitVal y2 + 10 * digitVal y3 + digitVal y4
      let mo := 10 * digitVal m1 + digitVal m2
      let d := 10 * digitVal d1 + digitVal d2
      let h := 10 * digitVal h1 + digitVal h2
      let mi := 10 * digitVal n1 + digitVal n2
      let se := 10 * digitVal s1 + digitVal s2
      if 1 ≤ mo ∧ mo ≤ 12 ∧ 1 ≤ d ∧ d ≤ daysInMonth y mo ∧ h ≤ 23 ∧ mi ≤ 59 ∧ se ≤ 59 then
        some (daysFromCivil y mo d * 86400 + h * 3600 + mi * 60 + se)
      else Option.none
    else Option.none
  | _ => Option.none

/-- Zero-padded decimal rendering of a nonnegative integer. -/
def padNum (width : ℕ) (n : ℤ) : String :=
  let s := toString n.toNat
  String.mk (List.replicate (width - s.length) '0') ++ s

/-- `datetime.isoformat()` of an epoch-second timestamp plus microseconds. -/
def isoOfEpoch (secs : ℤ) (us : ℤ) : String :=
  let day := Int.fdiv secs 86400
  let rem := Int.fmod secs 86400
  let ymd := civilFromDays day
  padNum 4 ymd.1 ++ "-" ++ padNum 2 ymd.2.1 ++ "-" ++ padNum 2 ymd.2.2 ++ "T" ++
    padNum 2 (rem / 3600) ++ ":" ++ padNum 2 (rem / 60 % 60) ++ ":" ++ padNum 2 (rem % 60) ++
    (if us = 0 then "" else "." ++ padNum 6 us)

/-- Python `datetime.fromtimestamp(q).isoformat()` (UTC clock, as deployed):
rounds to the microsecond half-to-even, `none` when the year leaves 1..9999
(`ValueError`).  CPython raises `OverflowError` instead for timestamps beyond
the C `time_t` range; the theorems never touch that corner. -/
def fromtimestampIso (q : ℚ) : Option String :=
  let usTotal := roundHalfEven (q * 1000000)
  let secs := Int.fdiv usTotal 1000000
  let us := Int.fmod usTotal 1000000
  if -62135596800 ≤ secs ∧ secs < 253402300800 then
    some (isoOfEpoch secs us)
  else Option.none

/-! ## Python numeric conversions used by the cleaner -/

/-- Characters the numeric cleaner keeps from a string field. -/
def keepNumChar (c : Char) : Bool :=
  c.isDigit ∨ c = '.' ∨ c = '-'

/-- Python `int(s)` for strings of digits, dots and minus signs: an optional
leading minus followed by at least one digit, nothing else. -/
def parseIntChars (cs : List Char) : Option ℤ :=
  let body := match cs with
    | '-' :: rest => some (true, rest)
    | rest => some (false, rest)
  match body with
  | some (neg, ds) =>
    if ds ≠ [] ∧ ds.all Char.isDigit then
      let n := ds.foldl (fun acc c => 10 * acc + digitVal c) 0
      some (if neg then -n else n)
    else Option.none
  | Option.none => Option.none

/-- Python `float(s)` for strings of digits, dots and minus signs: an optional
leading minus, an integer part and at most one dot with a fractional part, at
least one digit overall. -/
def parseFloatChars (cs : List Char) : Option ℚ :=
  let (neg, body) := match cs with
    | '-' :: rest => (true, rest)
    | rest => (false, rest)
  let intPart := body.takeWhile Char.isDigit
  let rest := body.drop intPart.length
  let parsed : Option ℚ :=
    match rest with
    | [] => if intPart ≠ [] then some ((intPart.foldl (fun acc c => 10 * acc + digitVal c) 0 : ℤ) : ℚ)
            else Option.none
    | '.' :: frac =>
      if frac.all Char.isDigit ∧ (intPart ≠ [] ∨ frac ≠ []) then
        let ip : ℤ := intPart.foldl (fun acc c => 10 * acc + digitVal c) 0
        let fp : ℤ := frac.foldl (fun acc c => 10 * acc + digitVal c) 0
        some ((ip : ℚ) + (fp : ℚ) / ((10 ^ frac.length : ℕ) : ℚ))
      else Option.none
    | _ => Option.none
  parsed.map (fun q => if neg then -q else q)

/-- Python `float(x)` on non-string values; `none` is the `TypeError`. -/
def pyFloatOfVal : Val → Option ℚ
  | vInt n => some (n : ℚ)
  | vFloat q => some q
  | vBool b => some (if b then 1 else 0)
  | _ => Option.none

/-- Python `int(x)` on non-string values; `none` is the `TypeError`. -/
def pyIntOfVal : Val → Option ℤ
  | vInt n => some n
  | vFloat q => some (pyTrunc q)
  | vBool b => some (if b then 1 else 0)
  | _ => Option.none

/-! ## DataCleaner (`app/services/data_processing.py`)

Each helper of `DataCleaner` is translated field list by field list.  A failed
conversion quarantines the raw value under `<field>_raw` and deletes the
canonical key; `Except.error` marks an exception the helper's own
`except (ValueError, TypeError)` does not catch, which the per-record loop of
`clean_flight_data` turns into dropping the record. -/

/-- Quarantine: `flight[field + "_raw"] = v` followed by `del flight[field]`. -/
def quarantineField (r : Record) (f : String) (v : Val) : Record :=
  dictDel (dictSet r (f ++ "_raw") v) f

/-- Date/time fields standardized by `_standardize_dates`. -/
def dateFields : List String :=
  ["departure_time", "arrival_time", "booking_date", "created_at", "updated_at"]

/-- One field of `_standardize_dates`: Unix stamps through `fromtimestamp`,
strings through `parser.parse`, others untouched; parse failures quarantined.
`isoformat` of a parsed strict-ISO string is that string again. -/
def standardizeDateStep (r : Record) (f : String) : Record :=
  match dictLookup r f with
  | Option.none => r
  | some v =>
    if pyTruthy v then
      match v with
      | vInt n =>
        match fromtimestampIso (n : ℚ) with
        | some s => dictSet r f (vStr s)
        | Option.none => quarantineField r f v
      | vFloat q =>
        match fromtimestampIso q with
        | some s => dictSet r f (vStr s)
        | Option.none => quarantineField r f v
      | vBool b =>
        match fromtimestampIso (if b then 1 else 0) with
        | some s => dictSet r f (vStr s)
        | Option.none => quarantineField r f v
      | vStr s =>
        match pyParseIsoDT s with
        | some _ => dictSet r f (vStr s)
        | Option.none => quarantineField r f v
      | _ => r
    else r

/-- `DataCleaner._standardize_dates`. -/
def standardize_dates (r : Record) : Record :=
  dateFields.foldl standardizeDateStep r

/-- Fields validated by `_clean_airport_codes`. -/
def codeFields : List String :=
  ["origin", "destination", "operating_airline", "marketing_airline"]

/-- One field of `_clean_airport_codes`: stringify, strip, uppercase, then
require 2–4 alphabetic characters; otherwise quarantine the processed code. -/
def cleanCodeStep (r : Record) (f : String) : Record :=
  match dictLookup r f with
  | Option.none => r
  | some v =>
    if pyTruthy v then
      let code := pyUpper (pyStrip (pyStr v))
      if 2 ≤ code.length ∧ code.length ≤ 4 ∧ code ≠ "" ∧ code.toList.all Char.isAlpha then
        dictSet r f (vStr code)
      else
        quarantineField r f (vStr code)
    else r

/-- `DataCleaner._clean_airport_codes`. -/
def clean_airport_codes (r : Record) : Record :=
  codeFields.foldl cleanCodeStep r

/-- Numeric fields coerced by `_clean_numeric_fields`. -/
def numericFields : List String :=
  ["price", "base_fare", "taxes", "fees", "available_seats",
   "total_seats", "flight_duration", "distance", "baggage_allowance"]

/-- Result type of a Python numeric coercion: `int` or `float`. -/
inductive NumV : Type where
  | nInt (n : ℤ)
  | nFloat (q : ℚ)

/-- Whether the coerced number is negative. -/
def NumV.isNeg : NumV → Bool
  | .nInt n => n < 0
  | .nFloat q => q < 0

/-- Python `abs` on the coerced number. -/
def NumV.abs : NumV → NumV
  | .nInt n => .nInt |n|
  | .nFloat q => .nFloat |q|

/-- Back to a record value. -/
def NumV.toVal : NumV → Val
  | .nInt n => vInt n
  | .nFloat q => vFloat q

/-- Rational value of the coerced number. -/
def NumV.toRat : NumV → ℚ
  | .nInt n => (n : ℚ)
  | .nFloat q => q

/-- The numeric coercion of `_clean_numeric_fields`: strings are stripped to
digits, dots and minus signs then parsed (`float` when a dot survives, else
`int`); other values go through `float(x)`.  `none` is the caught
`ValueError`/`TypeError`. -/
def pyToNumber : Val → Option NumV
  | vStr s =>
    let kept := s.toList.filter keepNumChar
    if kept.contains '.' then (parseFloatChars kept).map NumV.nFloat
    else (parseIntChars kept).map NumV.nInt
  | v => (pyFloatOfVal v).map NumV.nFloat

/-- One field of `_clean_numeric_fields`: skip missing and `None` values,
coerce, force negatives to their absolute value, quarantine on failure. -/
def cleanNumericStep (r : Record) (f : String) : Record :=
  match dictLookup r f with
  | Option.none => r
  | some vNone => r
  | some v =>
    match pyToNumber v with
    | some x => dictSet r f (if x.isNeg then x.abs.toVal else x.toVal)
    | Option.none => quarantineField r f v

/-- `DataCleaner._clean_numeric_fields`. -/
def clean_numeric_fields (r : Record) : Record :=
  numericFields.foldl cleanNumericStep r

/-- The flight-number part of `_clean_airline_info`: digits are extracted from
strings and coerced with `int`, failures quarantined. -/
def cleanFlightNumber (r : Record) : Record :=
  match dictLookup r "flight_number" with
  | Option.none => r
  | some v =>
    if pyTruthy v then
      match v with
      | vStr s =>
        match parseIntChars (s.toList.filter Char.isDigit) with
        | some n => dictSet r "flight_number" (vInt n)
        | Option.none => quarantineField r "flight_number" v
      | v' =>
        match pyIntOfVal v' with
        | some n => dictSet r "flight_number" (vInt n)
        | Option.none => quarantineField r "flight_number" v'
    else r

/-- The airline-code part of `_clean_airline_info`: `flight[f].upper()` — an
`AttributeError` (uncaught) when the value is not a string. -/
def airlineUpperStep (r : Record) (f : String) : Except Unit Record :=
  match dictLookup r f with
  | Option.none => .ok r
  | some v =>
    if pyTruthy v then
      match v with
      | vStr s => .ok (dictSet r f (vStr (pyUpper s)))
      | _ => .error ()
    else .ok r

/-- `DataCleaner._clean_airline_info`. -/
def clean_airline_info (r : Record) : Except Unit Record :=
  match airlineUpperStep (cleanFlightNumber r) "operating_airline" with
  | .error e => .error e
  | .ok r2 => airlineUpperStep r2 "marketing_airline"

/-- Letter sets mapping a booking class to a cabin in `_add_derived_fields`. -/
def firstClassCodes : List String := ["F", "A", "P"]

/-- Business-cabin booking-class letters. -/
def businessClassCodes : List String := ["J", "C", "D", "I", "Z"]

/-- Economy-cabin booking-class letters. -/
def economyClassCodes : List String := ["W", "E", "Y", "B", "M", "H", "Q", "K", "L", "V", "S", "N"]

/-- The id-synthesis part of `_add_derived_fields`: join the truthy parts with
underscores — `TypeError` (uncaught) when a kept part is not a string. -/
def addDerivedId (r : Record) : Except Unit Record :=
  if hasKey r "id" then .ok r
  else
    match pyJoin "_"
      (([dictGetD r "operating_airline" (vStr ""),
         vStr (pyStr (dictGetD r "flight_number" (vStr ""))),
         dictGetD r "origin" (vStr ""),
         dictGetD r "departure_time" (vStr "")]).filter pyTruthy) with
    | .error e => .error e
    | .ok joined => .ok (dictSet r "id" (vStr joined))

/-- The duration part of `_add_derived_fields`: minutes between the two
timestamps; parse failures are caught and leave the record unchanged. -/
def addDerivedDuration (r : Record) : Record :=
  if ¬ hasKey r "flight_duration" ∧ hasKey r "departure_time" ∧ hasKey r "arrival_time" then
    match dictLookup r "departure_time", dictLookup r "arrival_time" with
    | some (vStr dep), some (vStr arr) =>
      match pyParseIsoDT dep, pyParseIsoDT arr with
      | some d, some a => dictSet r "flight_duration" (vFloat (((a - d : ℤ) : ℚ) / 60))
      | _, _ => r
    | _, _ => r
  else r

/-- The cabin-class part of `_add_derived_fields`. -/
def addDerivedCabin (r : Record) : Record :=
  match dictLookup r "booking_class" with
  | some (vStr s) =>
    let b := pyUpper s
    if b ∈ firstClassCodes then dictSet r "cabin_class" (vStr "First")
    else if b ∈ businessClassCodes then dictSet r "cabin_class" (vStr "Business")
    else if b ∈ economyClassCodes then dictSet r "cabin_class" (vStr "Economy")
    else r
  | _ => r

/-- `DataCleaner._add_derived_fields`. -/
def add_derived_fields (r : Record) : Except Unit Record :=
  match addDerivedId r with
  | .error e => .error e
  | .ok r1 => .ok (addDerivedCabin (addDerivedDuration r1))

/-- The per-record body of `clean_flight_data`: the five helpers in order;
`Except.error` is any exception escaping them. -/
def cleanRecord (r : Record) : Except Unit Record :=
  match clean_airline_info (clean_numeric_fields (clean_airport_codes (standardize_dates r))) with
  | .error e => .error e
  | .ok r4 => add_derived_fields r4

/-- `DataCleaner.clean_flight_data`: clean record by record, dropping (with a
logged error) any record whose cleaning raises. -/
def clean_flight_data (rs : List Record) : List Record :=
  rs.foldr (fun r acc =>
    match cleanRecord r with
    | .ok r' => r' :: acc
    | .error _ => acc) []

/-! ## DataProcessor.detect_price_anomalies (`app/services/data_processing.py`)

The pandas pipeline is embedded over `Option ℚ` cells (`none` is `NaN`).
`rolling(window, min_periods=1)` takes the trailing window including the
current row; `std` is the sample deviation (`ddof=1`), `NaN` on singleton
windows.  A comparison with `NaN` is false, so a row is flagged exactly when
its window holds at least two observations with positive variance and
`(p - mean)^2 > threshold^2 * variance` — the exact-ℚ form of
`abs((p - mean)/std) > threshold`.  The z-score column itself is irrational in
general and is not materialized; only the derived `is_anomaly` flag is. -/

/-- A DataFrame cell of the price column: outer `none` when the value would
force an object dtype (making `rolling` raise), inner `none` for `NaN`. -/
def numCell : Option Val → Option (Option ℚ)
  | Option.none => some Option.none
  | some vNone => some Option.none
  | some (vInt n) => some (some (n : ℚ))
  | some (vFloat q) => some (some q)
  | some _ => Option.none

/-- A cell of the parsed `departure_time` column: outer `none` when
`pd.to_datetime` raises, inner `none` for `NaT` (missing key). -/
def dtCell (r : Record) : Option (Option ℤ) :=
  match dictLookup r "departure_time" with
  | Option.none => some Option.none
  | some (vStr s) => (pyParseIsoDT s).map some
  | some _ => Option.none

/-- Sort key order used by `sort_values('departure_time')`: chronological with
`NaT` last. -/
def dtLe (r1 r2 : Record) : Bool :=
  match dtCell r1, dtCell r2 with
  | some (some a), some (some b) => a ≤ b
  | some (some _), _ => true
  | _, some (some _) => false
  | _, _ => true

/-- Rolling z-score flag of row `i` of the price column `ps`. -/
def anomalyFlag (ps : List (Option ℚ)) (window : ℕ) (threshold : ℚ) (i : ℕ) : Bool :=
  match ps.get? i with
  | some (some p) =>
    let vals := (((ps.take (i + 1)).drop (i + 1 - window)).filterMap id)
    let cnt := vals.length
    if 2 ≤ cnt then
      let m := vals.sum / (cnt : ℚ)
      let varQ := (vals.map (fun x => (x - m) ^ 2)).sum / ((cnt - 1 : ℕ) : ℚ)
      decide (0 < varQ ∧ threshold ^ 2 * varQ < (p - m) ^ 2)
    else false
  | _ => false

/-- `DataProcessor.detect_price_anomalies`: early return `[]` on an empty list
or a first record without `price`; inside the `try`, sort by departure time
when the column exists and append the anomaly flags; any pandas error returns
the original list. -/
def detect_price_anomalies (flights : List Record) (window : ℕ) (threshold : ℚ) :
    List Record :=
  match flights with
  | [] => []
  | f0 :: _ =>
    if ¬ hasKey f0 "price" then []
    else
      let hasDT := flights.any (fun r => hasKey r "departure_time")
      if hasDT ∧ ¬ flights.all (fun r => (dtCell r).isSome) then flights
      else
        let sorted := if hasDT then sortLe dtLe flights else flights
        if ¬ sorted.all (fun r => (numCell (dictLookup r "price")).isSome) then flights
        else
          let ps := sorted.map (fun r => (numCell (dictLookup r "price")).getD Option.none)
          sorted.enum.map (fun p =>
            dictSet p.2 "is_anomaly" (vBool (anomalyFlag ps window threshold p.1)))

/-! ## DataService fallback orchestration (`app/services/data_service.py`)

`DataService._with_fallback` drives one fetch callable over the configured
clients.  A source call either raises (caught and logged) or returns a value;
the Python code advances past a source exactly when it raised or returned
`None` — the test is `result is not None`, so any non-`None` value, empty
lists included, wins.  The winning envelope is `{"data": .., "source": name}`
plus `"fallback": True` when the winner came from the fallback list; the
absent key on the primary path is modelled as `fallback = false`. -/

inductive DataSource : Type where
  | amadeus
  | rapidapi
  | aviationstack
  | mock
deriving DecidableEq

/-- `source.name` of the Python enum member. -/
def DataSource.pyName : DataSource → String
  | .amadeus => "AMADEUS"
  | .rapidapi => "RAPIDAPI"
  | .aviationstack => "AVIATIONSTACK"
  | .mock => "MOCK"

/-- Outcome of `await func(source, ...)`: an exception, or a returned value
(`Option.none` being Python `None`). -/
inductive FetchRes (α : Type) : Type where
  | raise
  | val (v : Option α)

/-- The envelope `_with_fallback` returns on success. -/
structure Envelope (α : Type) : Type where
  data : α
  source : DataSource
  fallback : Bool

/-- The fallback loop of `_with_fallback`: skip unconfigured sources and the
primary, win on the first non-`None` result. -/
def fallbackLoop {α : Type} (clients : List DataSource) (src : DataSource)
    (F : DataSource → FetchRes α) : List (DataSource × String) → Option (Envelope α)
  | [] => Option.none
  | (s, _) :: rest =>
    if s ∈ clients ∧ s ≠ src then
      match F s with
      | .val (some v) => some ⟨v, s, true⟩
      | _ => fallbackLoop clients src F rest
    else fallbackLoop clients src F rest

/-- `DataService._with_fallback`; `Except.error` is the `DataServiceError`
raised when every source failed. -/
def with_fallback {α : Type} (clients : List DataSource) (src : DataSource)
    (fallbacks : List (DataSource × String)) (F : DataSource → FetchRes α) :
    Except Unit (Envelope α) :=
  let primary : Option (Envelope α) :=
    if src ∈ clients then
      match F src with
      | .val (some v) => some ⟨v, src, false⟩
      | _ => Option.none
    else Option.none
  match primary with
  | some e => .ok e
  | Option.none =>
    match fallbackLoop clients src F fallbacks with
    | some e => .ok e
    | Option.none => .error ()

/-- Specification view of the try order: the primary when configured, then the
configured fallback sources other than the primary, each tagged with the
fallback flag its envelope would carry. -/
def sourceChain (clients : List DataSource) (src : DataSource)
    (fallbacks : List (DataSource × String)) : List (DataSource × Bool) :=
  (if src ∈ clients then [(src, false)] else []) ++
    fallbacks.filterMap (fun p => if p.1 ∈ clients ∧ p.1 ≠ src then some (p.1, true) else Option.none)

/-- Whether a fetch outcome terminates the chain (non-`None` return). -/
def FetchRes.isSuccess {α : Type} : FetchRes α → Bool
  | .val (some _) => true
  | _ => false

/-- The returned value of a successful fetch, with a default off the success
path. -/
def FetchRes.valD {α : Type} (dflt : α) : FetchRes α → α
  | .val (some v) => v
  | _ => dflt

/-! ## MockDataProvider (`app/services/mock_data_provider.py`)

The generator's `random.*` calls are replaced by explicit draw oracles; a
theorem hypothesis `Valid…Oracle` restates the documented bounds of each call
(`randint(a, b) ∈ [a, b]`, `uniform(a, b) ∈ [a, b]`, `choice` an index).
`pyRandint` returns `none` — the `ValueError` `randint` raises — when its
bounds are inverted, so totality of the generator is a proved fact, not an
assumption.  Timestamps are `DayTime` pairs (day number, seconds past
midnight); float products such as `capacity * 0.5` are exact here because the
factors are small, so `int(...)` is the rational floor. -/

/-- `random.randint(lo, hi)` with the drawn value supplied by the oracle. -/
def pyRandint (lo hi x : ℤ) : Option ℤ :=
  if lo ≤ hi then some x else Option.none

/-- `random.sample(l, k)` modelled as a rotation selected by the oracle:
`k` distinct elements of `l`, `none` being the `ValueError` when `k > |l|`. -/
def pySample {α : Type} (l : List α) (k : ℕ) (start : ℕ) : Option (List α) :=
  if k ≤ l.length then some ((l.drop (start % l.length) ++ l.take (start % l.length)).take k)
  else Option.none

/-- A timezone-naive `datetime`: day number and seconds past midnight. -/
structure DayTime : Type where
  day : ℤ
  sec : ℤ
deriving DecidableEq

/-- Chronological order on `DayTime`. -/
def dtLeB (a b : DayTime) : Bool :=
  a.day < b.day ∨ (a.day = b.day ∧ a.sec ≤ b.sec)

/-- `t + timedelta(seconds=s)` with day carry. -/
def addSeconds (t : DayTime) (s : ℤ) : DayTime :=
  ⟨t.day + Int.fdiv (t.sec + s) 86400, Int.fmod (t.sec + s) 86400⟩

/-- An entry of `AUSTRALIAN_AIRPORTS`. -/
structure Airport : Type where
  iata : String
  name : String
  city : String
  country : String
  lat : ℚ
  lon : ℚ
  timezone : String
deriving DecidableEq

/-- The fixed `AUSTRALIAN_AIRPORTS` reference list. -/
def australianAirports : List Airport :=
  [⟨"SYD", "Sydney Airport", "Sydney", "Australia", -339399/10000, 1511753/10000, "Australia/Sydney"⟩,
   ⟨"MEL", "Melbourne Airport", "Melbourne", "Australia", -376696/10000, 1448498/10000, "Australia/Melbourne"⟩,
   ⟨"BNE", "Brisbane Airport", "Brisbane", "Australia", -273940/10000, 1531219/10000, "Australia/Brisbane"⟩,
   ⟨"PER", "Perth Airport", "Perth", "Australia", -319522/10000, 1158589/10000, "Australia/Perth"⟩,
   ⟨"ADL", "Adelaide Airport", "Adelaide", "Australia", -349285/10000, 1386007/10000, "Australia/Adelaide"⟩,
   ⟨"CBR", "Canberra Airport", "Canberra", "Australia", -353069/10000, 1491950/10000, "Australia/Sydney"⟩,
   ⟨"HBA", "Hobart Airport", "Hobart", "Australia", -428361/10000, 1475103/10000, "Australia/Hobart"⟩,
   ⟨"DRW", "Darwin Airport", "Darwin", "Australia", -124083/10000, 1308727/10000, "Australia/Darwin"⟩,
   ⟨"CNS", "Cairns Airport", "Cairns", "Australia", -168858/10000, 1457553/10000, "Australia/Brisbane"⟩,
   ⟨"OOL", "Gold Coast Airport", "Gold Coast", "Australia", -281667/10000, 1535000/10000, "Australia/Brisbane"⟩]

/-- An entry of `AIRLINES`. -/
structure Airline : Type where
  iata : String
  name : String
deriving DecidableEq

/-- The fixed `AIRLINES` list. -/
def airlinesList : List Airline :=
  [⟨"QF", "Qantas"⟩, ⟨"VA", "Virgin Australia"⟩, ⟨"JQ", "Jetstar"⟩,
   ⟨"TT", "Tigerair Australia"⟩, ⟨"NZ", "Air New Zealand"⟩, ⟨"EY", "Etihad Airways"⟩,
   ⟨"SQ", "Singapore Airlines"⟩, ⟨"CX", "Cathay Pacific"⟩, ⟨"EK", "Emirates"⟩,
   ⟨"LA", "LATAM"⟩]

/-- An entry of `AIRCRAFT_TYPES` with its capacity range. -/
structure AircraftType : Type where
  code : String
  name : String
  capLo : ℤ
  capHi : ℤ
deriving DecidableEq

/-- The fixed `AIRCRAFT_TYPES` list. -/
def aircraftTypes : List AircraftType :=
  [⟨"A320", "Airbus A320", 150, 186⟩, ⟨"A330", "Airbus A330", 250, 300⟩,
   ⟨"A350", "Airbus A350", 300, 350⟩, ⟨"A380", "Airbus A380", 500, 853⟩,
   ⟨"B737", "Boeing 737", 130, 215⟩, ⟨"B747", "Boeing 747", 366, 416⟩,
   ⟨"B777", "Boeing 777", 301, 550⟩, ⟨"B787", "Boeing 787", 242, 330⟩]

/-- `MockDataProvider.get_airports`. -/
def mock_get_airports : List Airport :=
  australianAirports

/-- One generated flight record of `MockDataProvider.get_flights`. -/
structure Flight : Type where
  id : String
  flight_number : String
  airline : Airline
  origin : Airport
  destination : Airport
  departure_time : DayTime
  arrival_time : DayTime
  duration : ℤ
  aircraft : AircraftType
  capacity : ℤ
  booked_seats : ℤ
  available_seats : ℤ
  load_factor : ℚ
  price : ℚ
  currency : String
  status : String
  stops : ℤ
  data_source : String

/-- The random draws one flight consumes, in call order. -/
structure FlightDraw : Type where
  hour : ℤ
  minute : ℤ
  durH : ℤ
  durM : ℤ
  airlineIdx : ℕ
  aircraftIdx : ℕ
  capacity : ℤ
  booked : ℤ
  basePrice : ℚ
  distance : ℚ
  noise : ℚ
  fnum : ℤ
  statusIdx : ℕ
  stopsIdx : ℕ
  uuid : String

/-- The draw oracle of one `get_flights` call. -/
structure FlightOracle : Type where
  originPick : ℕ
  destPick : ℕ
  perDay : ℕ → ℤ
  fd : ℕ → ℕ → FlightDraw

/-- The aircraft type `random.choice(AIRCRAFT_TYPES)` picks for a draw index;
the index is reduced modulo the (non-empty) list, so the default is inert. -/
def aircraftAt (i : ℕ) : AircraftType :=
  aircraftTypes.getD (i % aircraftTypes.length) ⟨"", "", 0, -1⟩

/-- The documented ranges of the draws one flight consumes. -/
def ValidFlightDraw (d : FlightDraw) : Prop :=
  6 ≤ d.hour ∧ d.hour ≤ 22 ∧ (d.minute = 0 ∨ d.minute = 15 ∨ d.minute = 30 ∨ d.minute = 45) ∧
  1 ≤ d.durH ∧ d.durH ≤ 6 ∧ 0 ≤ d.durM ∧ d.durM ≤ 59 ∧
  (aircraftAt d.aircraftIdx).capLo ≤ d.capacity ∧ d.capacity ≤ (aircraftAt d.aircraftIdx).capHi ∧
  pyTrunc ((d.capacity : ℚ) * (1/2)) ≤ d.booked ∧ d.booked ≤ pyTrunc ((d.capacity : ℚ) * (9/10)) ∧
  100 ≤ d.basePrice ∧ d.basePrice ≤ 300 ∧
  500 ≤ d.distance ∧ d.distance ≤ 4000 ∧
  -50 ≤ d.noise ∧ d.noise ≤ 100 ∧
  100 ≤ d.fnum ∧ d.fnum ≤ 9999 ∧ d.statusIdx < 3 ∧ d.stopsIdx < 3

/-- The documented ranges of every draw of a `get_flights` oracle. -/
def ValidFlightOracle (o : FlightOracle) : Prop :=
  (∀ i, 1 ≤ o.perDay i ∧ o.perDay i ≤ 5) ∧ ∀ i j, ValidFlightDraw (o.fd i j)

/-- The body of the per-day `for` loop of `get_flights`: departure at the drawn
hour/minute of the current day, a 1–6 h duration, aircraft capacity from the
drawn type's range, 50–90 % booked, and
`price = round(base + distance * 0.1 + noise, 2)`. -/
def mkFlight (d : FlightDraw) (cur : DayTime) (oa da : Airport) : Option Flight := do
  let dep : DayTime := ⟨cur.day, d.hour * 3600 + d.minute * 60⟩
  let durSec : ℤ := d.durH * 3600 + d.durM * 60
  let airline ← pyChoice airlinesList d.airlineIdx
  let aircraft ← pyChoice aircraftTypes d.aircraftIdx
  let capacity ← pyRandint aircraft.capLo aircraft.capHi d.capacity
  let booked ← pyRandint (pyTrunc ((capacity : ℚ) * (1/2))) (pyTrunc ((capacity : ℚ) * (9/10))) d.booked
  let fnum ← pyRandint 100 9999 d.fnum
  let status ← pyChoice ["scheduled", "delayed", "cancelled"] d.statusIdx
  let stops ← pyChoice [(0 : ℤ), 1, 2] d.stopsIdx
  pure
    { id := d.uuid
      flight_number := airline.iata ++ toString fnum
      airline := airline
      origin := oa
      destination := da
      departure_time := dep
      arrival_time := addSeconds dep durSec
      duration := d.durH * 60 + d.durM
      aircraft := aircraft
      capacity := capacity
      booked_seats := booked
      available_seats := capacity - booked
      load_factor := pyRound ((booked : ℚ) / (capacity : ℚ) * 100) 1
      price := pyRound (d.basePrice + d.distance * (1/10) + d.noise) 2
      currency := "AUD"
      status := status
      stops := stops
      data_source := "mock" }

/-- The `while current_date <= date_to and len(flights) < limit` loop of
`get_flights`, on fuel that covers every day of the range. -/
def flightsLoop (orc : FlightOracle) (dateTo : DayTime) (limit : ℕ) (oa da : Airport) :
    ℕ → DayTime → ℕ → List Flight → Option (List Flight)
  | 0, _, _, acc => some acc
  | fuel + 1, cur, dayIdx, acc =>
    if dtLeB cur dateTo ∧ acc.length < limit then do
      let n ← pyRandint 1 5 (orc.perDay dayIdx)
      let dayFl ← ((List.range n.toNat).take (limit - acc.length)).mapM
        (fun j => mkFlight (orc.fd dayIdx j) cur oa da)
      flightsLoop orc dateTo limit oa da fuel ⟨cur.day + 1, cur.sec⟩ (dayIdx + 1) (acc ++ dayFl)
    else some acc

/-- Resolution of an optional requested airport code: the matching airport, or
an oracle-chosen one (`origin_airport = next(...)` / `random.choice`). -/
def resolveAirport (code : Option String) (pick : ℕ) (pool : List Airport) : Option Airport :=
  match code.bind (fun c => pool.find? (fun a => a.iata = c)) with
  | some a => some a
  | Option.none => pyChoice pool pick

/-- `MockDataProvider.get_flights`. -/
def mock_get_flights (origin destination : Option String) (dateFrom dateTo : DayTime)
    (limit : ℕ) (orc : FlightOracle) : Option (List Flight) := do
  let oa ← resolveAirport origin orc.originPick australianAirports
  let da ←
    match destination.bind (fun c => australianAirports.find? (fun a => a.iata = c)) with
    | some a => some a
    | Option.none => pyChoice (australianAirports.filter (fun a => a.iata ≠ oa.iata)) orc.destPick
  flightsLoop orc dateTo limit oa da ((dateTo.day - dateFrom.day).toNat + 1) dateFrom 0 []

/-- One data point of `MockDataProvider.get_market_data`. -/
structure MarketPoint : Type where
  date : ℤ
  origin : String
  destination : String
  search_volume : ℤ
  booking_count : ℤ
  conversion_rate : ℚ
  average_price : ℚ
  min_price : ℚ
  max_price : ℚ
  load_factor : ℚ
  data_source : String

/-- The random draws one market-data day consumes. -/
structure MarketDraw : Type where
  baseDemand : ℚ
  uSearch : ℚ
  uConv : ℚ
  uPrice : ℚ
  uMin : ℚ
  uMax : ℚ
  uLoad : ℚ

/-- The draw oracle of one `get_market_data` call. -/
structure MarketOracle : Type where
  originPick : ℕ
  destPick : ℕ
  md : ℕ → MarketDraw

/-- The documented `uniform` ranges of a market-data oracle. -/
def ValidMarketOracle (o : MarketOracle) : Prop :=
  ∀ i, 50 ≤ (o.md i).baseDemand ∧ (o.md i).baseDemand ≤ 200 ∧
    4/5 ≤ (o.md i).uSearch ∧ (o.md i).uSearch ≤ 6/5 ∧
    1/10 ≤ (o.md i).uConv ∧ (o.md i).uConv ≤ 2/5 ∧
    150 ≤ (o.md i).uPrice ∧ (o.md i).uPrice ≤ 500 ∧
    7/10 ≤ (o.md i).uMin ∧ (o.md i).uMin ≤ 19/20 ∧
    21/20 ≤ (o.md i).uMax ∧ (o.md i).uMax ≤ 13/10 ∧
    60 ≤ (o.md i).uLoad ∧ (o.md i).uLoad ≤ 95

/-- The per-day body of `get_market_data`.  `today` is midnight, so
`date.hour = 0` and the morning/evening `time_factor` branch never fires: the
factor is `1.0` (kept in the search-volume product, as in the source).
`conversion_rate` is `round(booking_count / search_volume * 100, 2)` — a
percentage — when `search_volume > 0`, else `0`. -/
def mkMarketPoint (today : ℤ) (day : ℕ) (oa da : Airport) (d : MarketDraw) : MarketPoint :=
  let date := today - (day : ℤ)
  let isWeekend := 5 ≤ pyWeekday date
  let boost : ℚ := if isWeekend then 3/2 else 1
  let sv1 := pyTrunc (d.baseDemand * boost * d.uSearch)
  let bc := pyTrunc ((sv1 : ℚ) * d.uConv)
  let avgP := pyRound (d.uPrice * (if isWeekend then 6/5 else 1)) 2
  let timeFactor : ℚ := 1
  let sv := pyTrunc ((sv1 : ℚ) * timeFactor)
  { date := date
    origin := oa.iata
    destination := da.iata
    search_volume := sv
    booking_count := bc
    conversion_rate := if 0 < sv then pyRound ((bc : ℚ) / (sv : ℚ) * 100) 2 else 0
    average_price := avgP
    min_price := pyRound (avgP * d.uMin) 2
    max_price := pyRound (avgP * d.uMax) 2
    load_factor := pyRound d.uLoad 1
    data_source := "mock" }

/-- `MockDataProvider.get_market_data`: one point per day counting back from
`today`, then sorted oldest first (the ISO date strings sort
chronologically). -/
def mock_get_market_data (origin destination : Option String) (days : ℕ) (today : ℤ)
    (orc : MarketOracle) : Option (List MarketPoint) := do
  let oa ← resolveAirport origin orc.originPick australianAirports
  let da ←
    match destination.bind (fun c => australianAirports.find? (fun a => a.iata = c)) with
    | some a => some a
    | Option.none => pyChoice (australianAirports.filter (fun a => a.iata ≠ oa.iata)) orc.destPick
  let pts := (List.range days).map (fun day => mkMarketPoint today day oa da (orc.md day))
  pure (sortLe (fun p q => p.date ≤ q.date) pts)

/-- One `top_destinations` entry of `get_airport_analytics`. -/
structure TopDestination : Type where
  airport : Airport
  flight_count : ℤ
  average_price : ℚ
  load_factor : ℚ

/-- The day-indexed series block of `get_airport_analytics`. -/
structure AnalyticsSeries : Type where
  dates : List String
  flights : List ℚ
  passengers : List ℚ
  load_factors : List ℚ
  average_fares : List ℚ

/-- The analytics payload of `get_airport_analytics`. -/
structure Analytics : Type where
  airport : Airport
  time_period : String
  total_flights : ℤ
  total_passengers : ℤ
  average_load_factor : ℚ
  on_time_performance : ℚ
  top_destinations : List TopDestination
  time_series : AnalyticsSeries
  data_source : String

/-- The draw oracle of one `get_airport_analytics` call. -/
structure AnalyticsOracle : Type where
  samplePick : ℕ
  totalFlights : ℤ
  totalPax : ℤ
  avgLoad : ℚ
  otp : ℚ
  destCount : ℕ → ℤ
  destPrice : ℕ → ℚ
  destLoad : ℕ → ℚ
  tsFlights : ℕ → ℚ
  tsPax : ℕ → ℚ
  tsLoad : ℕ → ℚ
  tsFares : ℕ → ℚ

/-- `strftime("%Y-%m-%d")` of a day number. -/
def dateStr (day : ℤ) : String :=
  let ymd := civilFromDays day
  padNum 4 ymd.1 ++ "-" ++ padNum 2 ymd.2.1 ++ "-" ++ padNum 2 ymd.2.2

/-- The steps `2..days` of the bounded random walk of `generate_time_series`:
`next = round(prev + prev * uniform(-vol, vol), 2)`. -/
def walkSteps (u : ℕ → ℚ) : ℕ → ℕ → ℚ → List ℚ
  | 0, _, _ => []
  | n + 1, i, prev =>
    let nxt := pyRound (prev + prev * u i) 2
    nxt :: walkSteps u n (i + 1) nxt

/-- `generate_time_series(base, vol)`: an unrounded scaled start followed by
the walk; length `max 1 days`, as `range(1, days)` is empty for `days ≤ 1`. -/
def generate_time_series (base : ℚ) (days : ℕ) (u : ℕ → ℚ) : List ℚ :=
  let start := base * u 0
  start :: walkSteps u (days - 1) 1 start

/-- `MockDataProvider.get_airport_analytics`: `none` is the `ValueError`
raised for an airport code outside the reference list. -/
def mock_get_airport_analytics (code : String) (days : ℕ) (today : ℤ)
    (orc : AnalyticsOracle) : Option Analytics := do
  let airport ← australianAirports.find? (fun a => a.iata = code)
  let others := australianAirports.filter (fun a => a.iata ≠ code)
  let dests ← pySample others (min 5 others.length) orc.samplePick
  let totalFlights ← pyRandint 1000 5000 orc.totalFlights
  let totalPax ← pyRandint 100000 500000 orc.totalPax
  let tops ← dests.enum.mapM (fun p => do
    let c ← pyRandint 50 200 (orc.destCount p.1)
    pure { airport := p.2, flight_count := c,
           average_price := pyRound (orc.destPrice p.1) 2,
           load_factor := pyRound (orc.destLoad p.1) 1 : TopDestination })
  pure
    { airport := airport
      time_period := "Last " ++ toString days ++ " days"
      total_flights := totalFlights
      total_passengers := totalPax
      average_load_factor := pyRound orc.avgLoad 1
      on_time_performance := pyRound orc.otp 1
      top_destinations := tops
      time_series :=
        { dates := (List.range days).map (fun i => dateStr (today - (i : ℤ)))
          flights := generate_time_series 100 days orc.tsFlights
          passengers := generate_time_series 1000 days orc.tsPax
          load_factors := generate_time_series 80 days orc.tsLoad
          average_fares := generate_time_series 250 days orc.tsFares }
      data_source := "mock" }

/-! ## DataService.get_airports (`app/services/data_service.py`)

The operation drives `fetch_airports` through `_with_fallback`.  Per source:
Amadeus has no airports endpoint and returns `None`; the two live aggregators
are the environment (an arbitrary outcome per call); the mock branch filters
the reference list and always returns a (possibly empty) list.  The envelope
is rendered with one optional field per optional dict key. -/

/-- Python `str.lower()` (ASCII fragment). -/
def pyLower (s : String) : String :=
  String.mk (s.toList.map Char.toLower)

/-- Python `needle in hay` on strings. -/
def strContains (hay needle : String) : Bool :=
  (List.range (hay.length + 1)).any (fun i => needle.toList.isPrefixOf (hay.toList.drop i))

/-- The search predicate of the mock branch of `fetch_airports`; the mock
airports carry no `icao` key, so `ap.get("icao")` is falsy and that disjunct
never matches. -/
def airportMatchesSearch (s : String) (a : Airport) : Bool :=
  let sl := pyLower s
  strContains (pyLower a.name) sl ∨ strContains (pyLower a.city) sl ∨
    strContains (pyLower a.country) sl ∨ sl = pyLower a.iata

/-- The mock branch of `fetch_airports`: the reference list through the three
optional filters (skipped on falsy arguments, as `if search:` does). -/
def filterAirports (search country iata : Option String) : List Airport :=
  let l1 := match search with
    | some s => if s ≠ "" then australianAirports.filter (airportMatchesSearch s)
                else australianAirports
    | Option.none => australianAirports
  let l2 := match country with
    | some c => if c ≠ "" then l1.filter (fun a => strContains (pyLower a.country) (pyLower c))
                else l1
    | Option.none => l1
  match iata with
  | some i => if i ≠ "" then l2.filter (fun a => a.iata = pyUpper i) else l2
  | Option.none => l2

/-- The result dict of `get_airports`; an `Option.none` field is an absent
key. -/
structure AirportsEnvelope : Type where
  data : List Airport
  source : String
  fallback : Option Bool
  is_mock : Option Bool
  warning : Option String
deriving DecidableEq

/-- `fetch_airports` as a function of the source tried. -/
def fetchAirports (realOut : DataSource → FetchRes (List Airport))
    (search country iata : Option String) : DataSource → FetchRes (List Airport)
  | .amadeus => .val Option.none
  | .rapidapi => realOut .rapidapi
  | .aviationstack => realOut .aviationstack
  | .mock => .val (some (filterAirports search country iata))

/-- `DataService.get_airports`: primary Amadeus when real data is requested
and configured, else mock; the fallback chain only when real data is
requested; on `DataServiceError` the unfiltered mock list with a warning. -/
def get_airports (configured : List DataSource)
    (realOut : DataSource → FetchRes (List Airport))
    (search country iata : Option String) (useRealData : Bool) : AirportsEnvelope :=
  let clients := configured ++ [DataSource.mock]
  let F := fetchAirports realOut search country iata
  let primary := if useRealData ∧ DataSource.amadeus ∈ clients then DataSource.amadeus
                 else DataSource.mock
  let fbs := if useRealData then
      [(DataSource.rapidapi, "RapidAPI"), (DataSource.aviationstack, "AviationStack"),
       (DataSource.mock, "Mock Data")]
    else []
  match with_fallback clients primary fbs F with
  | .ok env =>
    { data := env.data, source := env.source.pyName,
      fallback := if env.fallback then some true else Option.none,
      is_mock := Option.none, warning := Option.none }
  | .error _ =>
    { data := mock_get_airports, source := "mock", fallback := Option.none,
      is_mock := Option.none, warning := some "All data sources failed for fetch_airports" }

/-! ## RateLimiter (`app/utils/rate_limiter.py`)

The in-memory store maps a key to `(count, reset_time)`; one key is modelled.
`check_rate_limit` raises `RateLimitExceeded` only when `remaining < 0`. -/

/-- The dict `_in_memory_rate_limit` returns. -/
structure RateInfo : Type where
  limit : ℤ
  remaining : ℤ
  reset : ℤ
  count : ℤ
deriving DecidableEq

/-- `RateLimiter._in_memory_rate_limit`: bump or reset the window counter and
report `remaining = max(0, limit - count)`. -/
def in_memory_rate_limit (limit window : ℤ) (store : Option (ℤ × ℚ)) (now : ℚ) :
    RateInfo × (ℤ × ℚ) :=
  let cr :=
    match store with
    | some (c, rt) => if rt < now then ((1 : ℤ), now + (window : ℚ)) else (c + 1, rt)
    | Option.none => ((1 : ℤ), now + (window : ℚ))
  ({ limit := limit, remaining := max 0 (limit - cr.1), reset := pyTrunc (cr.2 - now),
     count := cr.1 }, cr)

/-- `RateLimiter.check_rate_limit` on the in-memory path: `Except.error` is
the `RateLimitExceeded` raised when `remaining < 0`. -/
def check_rate_limit (limit window : ℤ) (store : Option (ℤ × ℚ)) (now : ℚ) :
    Except Unit RateInfo × (ℤ × ℚ) :=
  let ir := in_memory_rate_limit limit window store now
  ((if ir.1.remaining < 0 then .error () else .ok ir.1), ir.2)

/-! ## BaseApiClient._make_request (`app/services/base_client.py`)

Attempt outcomes come from the environment.  The `except (httpx.RequestError,
ApiClientError)` clause catches every failure; when the retry budget is not
exhausted the handler computes the backoff delay and evaluates
`asyncio.sleep` — but `base_client.py` never imports `asyncio`, so that
evaluation raises `NameError`, which nothing catches.  On a spent budget the
code breaks out and either returns the subclass mock payload or re-raises
`last_error` — which is the raw `httpx.RequestError` when the transport was
what failed. -/

/-- Outcome of one HTTP attempt. -/
inductive Attempt : Type where
  | success (v : Val)
  | httpError (status : ℤ) (body : Val)
  | tooMany (retryAfter : ℤ)
  | transport
  | badJson (status : ℤ)

/-- Exception classes `_make_request` can surface. -/
inductive ClientExc : Type where
  | apiClientError (status : Option ℤ)
  | rateLimitError (status retryAfter : ℤ)
  | transportError
  | nameErrorAsyncio
deriving DecidableEq

/-- How `_make_request` terminates. -/
inductive RequestOut : Type where
  | ok (v : Val)
  | mockData
  | exc (e : ClientExc)

/-- The exception a failed attempt raises inside the `try` block. -/
def Attempt.toExc : Attempt → ClientExc
  | .success _ => .apiClientError Option.none
  | .httpError s _ => .apiClientError (some s)
  | .tooMany ra => .rateLimitError 429 ra
  | .transport => .transportError
  | .badJson s => .apiClientError (some s)

/-- The code after the retry loop: mock fallback, else
`raise last_error or ApiClientError("Unknown error occurred")`. -/
def afterRetries (useMock : Bool) (last : Option ClientExc) : RequestOut :=
  if useMock then .mockData
  else .exc (last.getD (.apiClientError Option.none))

/-- The `while retry_count <= max_retries` loop of `_make_request`. -/
def requestLoop (attempts : ℕ → Attempt) (maxRetries : ℕ) (useMock : Bool) :
    ℕ → ℕ → Option ClientExc → RequestOut
  | 0, _, last => afterRetries useMock last
  | _fuel + 1, k, last =>
    if k ≤ maxRetries then
      match attempts k with
      | .success v => .ok v
      | a =>
        let e := a.toExc
        if maxRetries ≤ k then afterRetries useMock (some e)
        else .exc .nameErrorAsyncio
    else afterRetries useMock last

/-- `BaseApiClient._make_request` for an already well-formed method (the
default `rate_limit=None` keeps `_check_rate_limit` inert). -/
def make_request (attempts : ℕ → Attempt) (maxRetries : ℕ) (useMock : Bool) : RequestOut :=
  requestLoop attempts maxRetries useMock (maxRetries + 1) 0 Option.none

/-! ## Statement material: well-formedness, projections and fixtures -/

/-- A record that is the image of a Python dict: no duplicate keys. -/
def WFRecord (r : Record) : Prop :=
  (r.map Prod.fst).Nodup

/-- The numeric reading of a record field, when it holds a number. -/
def numLookup (r : Record) (f : String) : Option ℚ :=
  match dictLookup r f with
  | some (vInt n) => some (n : ℚ)
  | some (vFloat q) => some q
  | _ => Option.none

/-- The canonical numeric fields other than `flight_duration` (the one field
`_add_derived_fields` can later synthesize from the timestamps). -/
def nonDerivedNumericFields : List String :=
  ["price", "base_fare", "taxes", "fees", "available_seats",
   "total_seats", "distance", "baggage_allowance"]

/-- The record whose cleaning raises: a truthy non-date value left in
`departure_time` reaches the id-synthesis `'_'.join` as a non-string. -/
def raisingRecord : Record :=
  [("departure_time", vList [vStr "x"])]

/-- The spec's §8 scenario record. -/
def scenarioRecord : Record :=
  [("origin", vStr "  syd  "), ("price", vStr "$199.99"), ("available_seats", vStr "150"),
   ("flight_number", vStr "QF400"), ("booking_class", vStr "Y")]

/-- A record whose arrival timestamp precedes its departure timestamp. -/
def backwardsFlightRecord : Record :=
  [("departure_time", vStr "2023-12-02T10:00:00"), ("arrival_time", vStr "2023-12-01T10:00:00")]

/-- The anomaly fixture of `tests/test_data_processing.py`: twenty hourly
baseline prices `190 + i` followed by the injected outliers `500` and `50`. -/
def anomalyTestFlights : List Record :=
  ((List.range 20).map (fun i =>
    [("departure_time", vStr ("2023-12-01T" ++ padNum 2 (i : ℤ) ++ ":00:00")),
     ("price", vInt (190 + (i : ℤ)))]))
  ++ [[("departure_time", vStr "2023-12-01T21:00:00"), ("price", vInt 500)],
      [("departure_time", vStr "2023-12-01T22:00:00"), ("price", vInt 50)]]

/-- Whether a processed record carries `is_anomaly = True`. -/
def isAnomalyTrue (r : Record) : Bool :=
  match dictLookup r "is_anomaly" with
  | some (vBool true) => true
  | _ => false

/-- The integer price of a record, when it is one. -/
def priceIntVal (r : Record) : Option ℤ :=
  match dictLookup r "price" with
  | some (vInt n) => some n
  | _ => Option.none

/-- A market-data draw inside every documented range whose first day yields
`search_volume = 40` and `booking_count = 10`. -/
def cexMarketDraw : MarketDraw :=
  { baseDemand := 50, uSearch := 4/5, uConv := 1/4, uPrice := 150,
    uMin := 7/10, uMax := 21/20, uLoad := 60 }

/-- The market oracle repeating `cexMarketDraw`. -/
def cexMarketOracle : MarketOracle :=
  { originPick := 0, destPick := 0, md := fun _ => cexMarketDraw }

/-- The single point `mock_get_market_data` produces from `cexMarketOracle`
with `days = 1` and `today = 0`. -/
def cexMarketPoint : MarketPoint :=
  { date := 0, origin := "SYD", destination := "MEL", search_volume := 40,
    booking_count := 10, conversion_rate := 25, average_price := 150,
    min_price := 105, max_price := 315/2, load_factor := 60, data_source := "mock" }

/-- A flight draw inside every documented range. -/
def witnessFlightDraw : FlightDraw :=
  { hour := 10, minute := 0, durH := 2, durM := 0, airlineIdx := 0, aircraftIdx := 0,
    capacity := 150, booked := 80, basePrice := 200, distance := 1000, noise := 0,
    fnum := 400, statusIdx := 0, stopsIdx := 0, uuid := "u" }

/-- The flight oracle repeating `witnessFlightDraw` with one flight per day. -/
def witnessFlightOracle : FlightOracle :=
  { originPick := 0, destPick := 0, perDay := fun _ => 1, fd := fun _ _ => witnessFlightDraw }

/-- An analytics oracle with constant draws. -/
def witnessAnalyticsOracle : AnalyticsOracle :=
  { samplePick := 0, totalFlights := 2000, totalPax := 200000, avgLoad := 80, otp := 90,
    destCount := fun _ => 100, destPrice := fun _ => 300, destLoad := fun _ => 75,
    tsFlights := fun _ => 1, tsPax := fun _ => 1, tsLoad := fun _ => 1, tsFares := fun _ => 1 }

/-- Internal consistency of one generated flight: bookings in the floored
50–90 % band of capacity, available seats between zero and capacity, a
non-negative price, and a departure day inside the requested range. -/
def FlightConsistent (dateFrom dateTo : DayTime) (fl : Flight) : Prop :=
  0 ≤ fl.available_seats ∧ fl.available_seats ≤ fl.capacity ∧
  pyTrunc ((fl.capacity : ℚ) * (1/2)) ≤ fl.booked_seats ∧
  fl.booked_seats ≤ pyTrunc ((fl.capacity : ℚ) * (9/10)) ∧
  0 ≤ fl.price ∧ dateFrom.day ≤ fl.departure_time.day ∧ fl.departure_time.day ≤ dateTo.day

/-- Internal consistency of one market-data point: non-negative prices and a
date within the requested trailing window. -/
def MarketPointConsistent (today : ℤ) (days : ℕ) (p : MarketPoint) : Prop :=
  0 ≤ p.average_price ∧ 0 ≤ p.min_price ∧ 0 ≤ p.max_price ∧
  today - (days : ℤ) + 1 ≤ p.date ∧ p.date ≤ today

/-! ## Shared lemmas on the Python primitives -/

theorem dictLookup_dictSet_self (r : Record) (k : String) (v : Val) :
    dictLookup (dictSet r k v) k = some v := by
  induction r with
  | nil => simp [dictSet, dictLookup]
  | cons p rest ih =>
    by_cases h : p.1 = k
    · simp [dictSet, dictLookup, h]
    · simp [dictSet, dictLookup, h, ih]

theorem dictLookup_dictSet_ne (r : Record) (k k' : String) (v : Val) (h : k' ≠ k) :
    dictLookup (dictSet r k v) k' = dictLookup r k' := by
  induction r with
  | nil =>
    have hne : ¬ k = k' := fun hh => h hh.symm
    simp [dictSet, dictLookup, hne]
  | cons p rest ih =>
    by_cases hk : p.1 = k
    · subst hk
      have hne : ¬ p.1 = k' := fun hh => h hh.symm
      simp [dictSet, dictLookup, hne]
    · simp [dictSet, dictLookup, hk, ih]

theorem dictLookup_dictDel_ne (r : Record) (k k' : String) (h : k' ≠ k) :
    dictLookup (dictDel r k) k' = dictLookup r k' := by
  induction r with
  | nil => simp [dictDel]
  | cons p rest ih =>
    by_cases hk : p.1 = k
    · subst hk
      have hne : ¬ p.1 = k' := fun hh => h hh.symm
      simp [dictDel, dictLookup, hne]
    · simp [dictDel, dictLookup, hk, ih]

theorem keys_dictDel_sublist (r : Record) (k : String) :
    ((dictDel r k).map Prod.fst).Sublist (r.map Prod.fst) := by
  induction r with
  | nil => simp [dictDel]
  | cons p rest ih =>
    by_cases hk : p.1 = k
    · simp only [dictDel, hk, if_pos rfl, List.map_cons]
      exact (List.sublist_cons_self _ _)
    · simp only [dictDel, hk, if_neg hk, List.map_cons]
      exact ih.cons₂ _

theorem wf_dictDel (r : Record) (k : String) (h : WFRecord r) : WFRecord (dictDel r k) :=
  (keys_dictDel_sublist r k).nodup h

theorem dictLookup_eq_none_of_not_mem_keys (r : Record) (k : String)
    (h : k ∉ r.map Prod.fst) : dictLookup r k = Option.none := by
  induction r with
  | nil => rfl
  | cons p rest ih =>
    simp only [List.map_cons, List.mem_cons] at h
    push_neg at h
    have hne : ¬ p.1 = k := fun hh => h.1 hh.symm
    simp [dictLookup, hne, ih h.2]

theorem dictLookup_dictDel_self (r : Record) (k : String) (h : WFRecord r) :
    dictLookup (dictDel r k) k = Option.none := by
  induction r with
  | nil => rfl
  | cons p rest ih =>
    by_cases hk : p.1 = k
    · subst hk
      simp only [dictDel, if_pos rfl]
      have : p.1 ∉ rest.map Prod.fst := by
        have := h
        simp only [WFRecord, List.map_cons, List.nodup_cons] at this
        exact this.1
      exact dictLookup_eq_none_of_not_mem_keys rest p.1 this
    · have hwf : WFRecord rest := by
        simp only [WFRecord, List.map_cons, List.nodup_cons] at h
        exact h.2
      simp [dictDel, dictLookup, hk, ih hwf]

theorem keys_dictSet (r : Record) (k : String) (v : Val) :
    (dictSet r k v).map Prod.fst = if k ∈ r.map Prod.fst then r.map Prod.fst
      else r.map Prod.fst ++ [k] := by
  induction r with
  | nil => simp [dictSet]
  | cons p rest ih =>
    by_cases hk : p.1 = k
    · simp [dictSet, hk]
    · have hne : ¬ k = p.1 := fun hh => hk hh.symm
      simp only [dictSet, if_neg hk, List.map_cons, ih, List.mem_cons]
      by_cases hm : k ∈ rest.map Prod.fst
      · simp [hm, hne]
      · simp [hm, hne]

theorem wf_dictSet (r : Record) (k : String) (v : Val) (h : WFRecord r) :
    WFRecord (dictSet r k v) := by
  unfold WFRecord
  rw [keys_dictSet]
  by_cases hm : k ∈ r.map Prod.fst
  · simpa [hm] using h
  · simp only [if_neg hm]
    rw [List.nodup_append]
    refine ⟨h, List.nodup_singleton k, ?_⟩
    intro a ha hk2
    simp only [List.mem_singleton] at hk2
    subst hk2
    exact hm ha

theorem mem_insertLe {α : Type} (le : α → α → Bool) (a x : α) (l : List α) :
    x ∈ insertLe le a l ↔ x ∈ a :: l := by
  induction l with
  | nil => simp [insertLe]
  | cons b bs ih =>
    by_cases h : le a b
    · simp [insertLe, h]
    · simp only [insertLe, if_neg h, List.mem_cons, ih, List.mem_cons]
      tauto

theorem mem_sortLe {α : Type} (le : α → α → Bool) (x : α) (l : List α) :
    x ∈ sortLe le l ↔ x ∈ l := by
  induction l with
  | nil => simp [sortLe]
  | cons a as ih => simp [sortLe, mem_insertLe, ih]

theorem pyChoice_mem {α : Type} (l : List α) (i : ℕ) (a : α) (h : pyChoice l i = some a) :
    a ∈ l := by
  unfold pyChoice at h
  exact List.get?_mem h

theorem pyChoice_isSome {α : Type} (l : List α) (i : ℕ) (h : l ≠ []) :
    ∃ a, pyChoice l i = some a ∧ a ∈ l := by
  have hlen : 0 < l.length := List.length_pos.2 h
  have hlt : i % l.length < l.length := Nat.mod_lt _ hlen
  rcases List.get?_eq_get hlt with hg
  exact ⟨_, hg, List.get_mem _ _ _⟩

theorem roundHalfEven_nonneg (q : ℚ) (h : 0 ≤ q) : 0 ≤ roundHalfEven q := by
  have hf : (0 : ℤ) ≤ ⌊q⌋ := Int.le_floor.2 (by exact_mod_cast h)
  simp only [roundHalfEven]
  split_ifs <;> omega

theorem pyRound_nonneg (q : ℚ) (n : ℕ) (h : 0 ≤ q) : 0 ≤ pyRound q n := by
  unfold pyRound
  have h1 : (0 : ℤ) ≤ roundHalfEven (q * (10 ^ n : ℕ)) :=
    roundHalfEven_nonneg _ (mul_nonneg h (by positivity))
  have h2 : (0 : ℚ) ≤ (roundHalfEven (q * (10 ^ n : ℕ)) : ℚ) := by exact_mod_cast h1
  positivity

theorem pyTrunc_of_nonneg (q : ℚ) (h : 0 ≤ q) : pyTrunc q = ⌊q⌋ := by
  unfold pyTrunc
  rw [if_neg (not_lt.2 h)]

theorem pyTrunc_nonneg (q : ℚ) (h : 0 ≤ q) : 0 ≤ pyTrunc q := by
  rw [pyTrunc_of_nonneg q h]
  exact Int.le_floor.2 (by exact_mod_cast h)

theorem pyTrunc_mono_of_nonneg (p q : ℚ) (hp : 0 ≤ p) (h : p ≤ q) :
    pyTrunc p ≤ pyTrunc q := by
  rw [pyTrunc_of_nonneg p hp, pyTrunc_of_nonneg q (hp.trans h)]
  exact Int.floor_le_floor h

/-! ## Claim theorems -/

/-- C1 (counterexample): `clean_flight_data` drops a record.  The record
`{"departure_time": ["x"]}` passes every guarded helper untouched, but its id
synthesis joins a non-string part, the `TypeError` escapes to the per-record
handler, and the record is skipped — so the output is shorter than the input. -/
theorem clean_flight_data_drops_record :
    clean_flight_data [raisingRecord] = [] ∧ ([raisingRecord] : List Record).length = 1 :=
  ⟨rfl, rfl⟩

theorem clean_flight_data_cons_ok (r r' : Record) (rs : List Record)
    (h : cleanRecord r = .ok r') :
    clean_flight_data (r :: rs) = r' :: clean_flight_data rs := by
  unfold clean_flight_data
  rw [List.foldr_cons, h]

theorem clean_flight_data_cons_error (r : Record) (rs : List Record) (e : Unit)
    (h : cleanRecord r = .error e) :
    clean_flight_data (r :: rs) = clean_flight_data rs := by
  unfold clean_flight_data
  rw [List.foldr_cons, h]

/-- C1 (amended): cleaning never grows the list, and preserves the length
exactly when no record's cleaning raises an uncaught exception; a record whose
cleaning raises is dropped, not kept. -/
theorem clean_flight_data_length (rs : List Record) :
    (clean_flight_data rs).length ≤ rs.length ∧
      ((∀ r ∈ rs, (cleanRecord r).isOk = true) → (clean_flight_data rs).length = rs.length) := by
  induction rs with
  | nil => exact ⟨le_rfl, fun _ => rfl⟩
  | cons r rest ih =>
    constructor
    · cases h : cleanRecord r with
      | ok r' =>
        rw [clean_flight_data_cons_ok r r' rest h]
        simpa using ih.1
      | error e =>
        rw [clean_flight_data_cons_error r rest e h]
        simp only [List.length_cons]
        exact ih.1.trans (Nat.le_succ _)
    · intro hall
      have hr := hall r (List.mem_cons_self r rest)
      cases h : cleanRecord r with
      | ok r' =>
        rw [clean_flight_data_cons_ok r r' rest h]
        simp only [List.length_cons]
        rw [ih.2 (fun x hx => hall x (List.mem_cons_of_mem r hx))]
      | error e =>
        rw [h] at hr
        simp [Except.isOk, Except.toBool] at hr

/-- C1 (witness): the scenario record of §8 cleans without an exception, so
the length is preserved on `[scenarioRecord]`. -/
theorem clean_flight_data_length_witness :
    (clean_flight_data [scenarioRecord]).length = ([scenarioRecord] : List Record).length :=
  (clean_flight_data_length [scenarioRecord]).2 (by
    intro r hr
    rw [List.mem_singleton] at hr
    subst hr
    with_unfolding_all decide)

/-- C8 (counterexample): after cleaning a record whose arrival precedes its
departure, the derived canonical `flight_duration` is `-1440.0` — a negative
canonical numeric field in the output. -/
theorem clean_derived_duration_negative :
    (clean_flight_data [backwardsFlightRecord]).map (fun r => numLookup r "flight_duration")
        = [some (-1440)] ∧ ((-1440 : ℚ) < 0) := by
  constructor
  · with_unfolding_all decide
  · norm_num

/-- C10: `detect_price_anomalies` returns `[]` on an empty list, and whenever
the first record has no `price` key — whatever the later records hold. -/
theorem detect_price_anomalies_guard (w : ℕ) (t : ℚ) (r : Record) (rs : List Record) :
    detect_price_anomalies [] w t = [] ∧
      (dictLookup r "price" = Option.none → detect_price_anomalies (r :: rs) w t = []) := by
  refine ⟨rfl, fun h => ?_⟩
  simp [detect_price_anomalies, hasKey, h]

/-- C10 (witness): a priceless first record forces `[]` even though the second
record carries a price. -/
theorem detect_price_anomalies_guard_witness :
    detect_price_anomalies [[("x", vInt 1)], [("price", vInt 5)]] 7 2 = [] :=
  (detect_price_anomalies_guard 7 2 [("x", vInt 1)] [[("price", vInt 5)]]).2 rfl

set_option maxHeartbeats 2000000 in
/-- C9: on the repository's own anomaly fixture (hourly baseline 190–209, then
500 and 50) with `window=7, threshold=2.0`, the code flags only the 500 record:
the 500 sits in the window of the 50 and inflates the rolling std, so the 50's
z-score stays below threshold, contradicting the test's `len(anomalies) == 2`. -/
theorem detect_price_anomalies_flags_one :
    ((detect_price_anomalies anomalyTestFlights 7 2).filter isAnomalyTrue).map priceIntVal
        = [some 500] ∧
      ((detect_price_anomalies anomalyTestFlights 7 2).filter
          (fun r => decide (priceIntVal r = some 50))).map isAnomalyTrue = [false] ∧
      (detect_price_anomalies anomalyTestFlights 7 2).length = 22 := by
  refine ⟨?_, ?_, ?_⟩ <;> with_unfolding_all decide

/-- C7: `base_client.py` never imports `asyncio`, so the first retry's
`await asyncio.sleep(delay)` raises `NameError` (here with `max_retries = 3`
and mock fallback enabled, where the claim promises the mock payload); and
with a spent budget and fallback disabled, `raise last_error` re-raises the
raw transport error rather than a typed `ApiClientError`. -/
theorem make_request_untyped_escape :
    make_request (fun _ => Attempt.transport) 3 true = .exc .nameErrorAsyncio ∧
      make_request (fun _ => Attempt.transport) 0 false = .exc .transportError :=
  ⟨rfl, rfl⟩

/-- C4: `remaining = max(0, limit - count)` is clamped at zero and
`check_rate_limit` raises only on `remaining < 0`, so it never raises; with
`limit=2, window=60`, the third request inside the window sails through with
`count = 3` and `remaining = 0` instead of hitting the `RateLimitExceeded`
path. -/
theorem check_rate_limit_never_blocks :
    (∀ (limit window : ℤ) (store : Option (ℤ × ℚ)) (now : ℚ),
        (check_rate_limit limit window store now).1 ≠ .error ()) ∧
      (check_rate_limit 2 60
          (some ((check_rate_limit 2 60
            (some ((check_rate_limit 2 60 Option.none 0).2)) 1).2)) 2).1
        = .ok ⟨2, 0, 58, 3⟩ := by
  constructor
  · intro limit window store now
    simp only [check_rate_limit, in_memory_rate_limit]
    have hmax : ∀ x : ℤ, ¬ (max 0 x < 0) := fun x hx => absurd (le_max_left 0 x) (not_le.2 hx)
    rw [if_neg (hmax _)]
    simp
  · with_unfolding_all rfl

/-- C3: with every real provider configured and raising, `get_airports` wins
through the in-chain mock branch: the envelope is
`{"data": ..., "source": "MOCK", "fallback": True}` — no `is_mock` key and no
`warning` key, contrary to the claimed degraded-mode tagging. -/
theorem get_airports_all_real_fail_untagged :
    get_airports [DataSource.amadeus, DataSource.rapidapi, DataSource.aviationstack]
        (fun _ => FetchRes.raise) Option.none Option.none Option.none true
      = { data := australianAirports, source := "MOCK", fallback := some true,
          is_mock := Option.none, warning := Option.none } := rfl

/-- C2 (counterexample): the primary source returns the empty list — a falsy
but non-`None` result — and the chain stops there with the primary's tag
instead of moving to the configured fallback that would have produced data. -/
theorem with_fallback_keeps_falsy_primary :
    with_fallback (α := List ℕ) [DataSource.amadeus, DataSource.rapidapi] DataSource.amadeus
        [(DataSource.rapidapi, "RapidAPI")]
        (fun s => match s with
          | DataSource.amadeus => .val (some [])
          | _ => .val (some [1]))
      = .ok ⟨[], DataSource.amadeus, false⟩ := rfl

/-- C5 (counterexample): the synthetic generator raises: an airport code
outside the reference list makes `get_airport_analytics` raise `ValueError`. -/
theorem mock_analytics_unknown_code_raises :
    mock_get_airport_analytics "XXX" 30 0 witnessAnalyticsOracle = Option.none := rfl

theorem fallbackLoop_eq_find {α : Type} [Inhabited α] (clients : List DataSource)
    (src : DataSource) (F : DataSource → FetchRes α) (l : List (DataSource × String)) :
    fallbackLoop clients src F l =
      match (l.filterMap (fun p =>
          if p.1 ∈ clients ∧ p.1 ≠ src then some (p.1, true) else Option.none)).find?
            (fun p => (F p.1).isSuccess) with
      | some p => some ⟨(F p.1).valD default, p.1, p.2⟩
      | Option.none => Option.none := by
  induction l with
  | nil => rfl
  | cons hd rest ih =>
    by_cases hc : hd.1 ∈ clients ∧ hd.1 ≠ src
    · cases hF : F hd.1 with
      | raise =>
        simp only [fallbackLoop, if_pos hc, hF, List.filterMap_cons, if_pos hc,
          List.find?_cons, FetchRes.isSuccess, hF]
        exact ih
      | val v =>
        cases v with
        | none =>
          simp only [fallbackLoop, if_pos hc, hF, List.filterMap_cons, if_pos hc,
            List.find?_cons, FetchRes.isSuccess, hF]
          exact ih
        | some a =>
          simp only [fallbackLoop, if_pos hc, hF, List.filterMap_cons, if_pos hc,
            List.find?_cons, FetchRes.isSuccess, hF, FetchRes.valD]
    · simp only [fallbackLoop, if_neg hc, List.filterMap_cons, if_neg hc]
      exact ih

theorem mem_sourceChain_fallback_iff (clients : List DataSource) (src : DataSource)
    (fbs : List (DataSource × String)) (p : DataSource × Bool)
    (h : p ∈ sourceChain clients src fbs) : p.2 = false ↔ p.1 = src := by
  unfold sourceChain at h
  rw [List.mem_append] at h
  rcases h with h | h
  · split at h
    · rw [List.mem_singleton] at h
      subst h
      simp
    · simp at h
  · rw [List.mem_filterMap] at h
    obtain ⟨q, _, hq⟩ := h
    split at hq
    · rename_i hcond
      cases hq
      simpa using fun hh => absurd hh hcond.2
    · cases hq

/-- C2 (amended): `_with_fallback` walks the configured sources in priority
order — the primary first, then the fallback list with the primary and
unconfigured sources skipped — and moves past a source exactly when its call
raised or returned `None`; any non-`None` result (falsy ones included) wins.
The envelope names the winning source and carries `fallback=true` exactly when
the winner is not the primary; when no source wins, `DataServiceError`. -/
theorem with_fallback_try_order {α : Type} [Inhabited α] (clients : List DataSource)
    (src : DataSource) (fbs : List (DataSource × String)) (F : DataSource → FetchRes α) :
    (with_fallback clients src fbs F =
      match (sourceChain clients src fbs).find? (fun p => (F p.1).isSuccess) with
      | some p => .ok ⟨(F p.1).valD default, p.1, p.2⟩
      | Option.none => .error ()) ∧
    (∀ e : Envelope α, with_fallback clients src fbs F = .ok e →
      (e.fallback = false ↔ e.source = src)) := by
  have hmain : with_fallback clients src fbs F =
      match (sourceChain clients src fbs).find? (fun p => (F p.1).isSuccess) with
      | some p => .ok ⟨(F p.1).valD default, p.1, p.2⟩
      | Option.none => .error () := by
    unfold with_fallback sourceChain
    by_cases hm : src ∈ clients
    · rw [if_pos hm, if_pos hm, List.singleton_append]
      cases hF : F src with
      | raise =>
        rw [List.find?_cons_of_neg _ (by simp [FetchRes.isSuccess, hF]),
          fallbackLoop_eq_find clients src F fbs]
        cases hfind : (fbs.filterMap (fun p =>
            if p.1 ∈ clients ∧ p.1 ≠ src then some (p.1, true) else Option.none)).find?
              (fun p => (F p.1).isSuccess) <;> rfl
      | val v =>
        cases v with
        | none =>
          rw [List.find?_cons_of_neg _ (by simp [FetchRes.isSuccess, hF]),
            fallbackLoop_eq_find clients src F fbs]
          cases hfind : (fbs.filterMap (fun p =>
              if p.1 ∈ clients ∧ p.1 ≠ src then some (p.1, true) else Option.none)).find?
                (fun p => (F p.1).isSuccess) <;> rfl
        | some a =>
          rw [List.find?_cons_of_pos _ (by simp [FetchRes.isSuccess, hF])]
          simp [hF, FetchRes.valD]
    · rw [if_neg hm, if_neg hm, List.nil_append,
        fallbackLoop_eq_find clients src F fbs]
      cases hfind : (fbs.filterMap (fun p =>
          if p.1 ∈ clients ∧ p.1 ≠ src then some (p.1, true) else Option.none)).find?
            (fun p => (F p.1).isSuccess) <;> rfl
  refine ⟨hmain, fun e he => ?_⟩
  rw [hmain] at he
  cases hfind : (sourceChain clients src fbs).find? (fun p => (F p.1).isSuccess) with
  | none => rw [hfind] at he; cases he
  | some p =>
    rw [hfind] at he
    cases he
    exact mem_sourceChain_fallback_iff clients src fbs p (List.mem_of_find?_eq_some hfind)

/-- C2 (witness): the amended rule applied to a run where every source raises
(the chain is exhausted) and to a concrete winning envelope. -/
theorem with_fallback_try_order_witness :
    with_fallback (α := List ℕ) [DataSource.amadeus, DataSource.mock] DataSource.amadeus
        [(DataSource.mock, "Mock Data")] (fun _ => FetchRes.raise) = .error () ∧
      (Envelope.fallback (α := List ℕ) ⟨[1], DataSource.amadeus, false⟩ = false ↔
        Envelope.source (α := List ℕ) ⟨[1], DataSource.amadeus, false⟩ = DataSource.amadeus) := by
  constructor
  · rw [(with_fallback_try_order (α := List ℕ) [DataSource.amadeus, DataSource.mock]
      DataSource.amadeus [(DataSource.mock, "Mock Data")] (fun _ => FetchRes.raise)).1]
    rfl
  · exact (with_fallback_try_order (α := List ℕ) [DataSource.amadeus, DataSource.mock]
      DataSource.amadeus [] (fun _ => FetchRes.val (some [1]))).2
        ⟨[1], DataSource.amadeus, false⟩ rfl

/-- C6 (amended): every point `get_market_data` produces stores in
`conversion_rate` the rounded percentage
`round(booking_count / search_volume * 100, 2)` when its `search_volume` is
positive, and `0` otherwise. -/
theorem market_conversion_formula (origin destination : Option String) (days : ℕ)
    (today : ℤ) (orc : MarketOracle) (l : List MarketPoint)
    (h : mock_get_market_data origin destination days today orc = some l) :
    ∀ p ∈ l, p.conversion_rate =
      if 0 < p.search_volume then
        pyRound ((p.booking_count : ℚ) / (p.search_volume : ℚ) * 100) 2
      else 0 := by
  intro p hp
  unfold mock_get_market_data at h
  cases ho : resolveAirport origin orc.originPick australianAirports with
  | none => rw [ho] at h; cases h
  | some oa =>
    rw [ho] at h
    simp only [Option.bind_eq_bind, Option.some_bind] at h
    have tail : ∀ da : Airport,
        l = sortLe (fun p q => decide (p.date ≤ q.date))
          (List.map (fun day => mkMarketPoint today day oa da (orc.md day))
            (List.range days)) →
        p.conversion_rate =
          if 0 < p.search_volume then
            pyRound ((p.booking_count : ℚ) / (p.search_volume : ℚ) * 100) 2
          else 0 := by
      intro da hl
      subst hl
      rw [mem_sortLe, List.mem_map] at hp
      obtain ⟨day, _, hday⟩ := hp
      subst hday
      simp only [mkMarketPoint]
    cases hdb : destination.bind (fun c => australianAirports.find? (fun a => a.iata = c)) with
    | some da =>
      rw [hdb] at h
      simp only [pure, Option.some.injEq] at h
      exact tail da h.symm
    | none =>
      rw [hdb] at h
      cases hc : pyChoice (australianAirports.filter (fun a => a.iata ≠ oa.iata)) orc.destPick with
      | none => rw [hc] at h; cases h
      | some da =>
        rw [hc] at h
        simp only [Option.some_bind, pure, Option.some.injEq] at h
        exact tail da h.symm

/-- C6 (witness): the formula applied to the concrete oracle's single point. -/
theorem market_conversion_formula_witness :
    cexMarketPoint.conversion_rate =
      if 0 < cexMarketPoint.search_volume then
        pyRound ((cexMarketPoint.booking_count : ℚ) / (cexMarketPoint.search_volume : ℚ) * 100) 2
      else 0 :=
  market_conversion_formula Option.none Option.none 1 0 cexMarketOracle [cexMarketPoint]
    (by with_unfolding_all rfl) cexMarketPoint (List.mem_singleton_self _)

theorem cleanNumericStep_lookup_ne (r : Record) (g f : String) (h1 : f ≠ g)
    (h2 : f ≠ g ++ "_raw") :
    dictLookup (cleanNumericStep r g) f = dictLookup r f := by
  unfold cleanNumericStep quarantineField
  split
  · rfl
  · rfl
  · split
    · exact dictLookup_dictSet_ne r g f _ h1
    · rw [dictLookup_dictDel_ne _ g f h1, dictLookup_dictSet_ne r (g ++ "_raw") f _ h2]

theorem quarantineField_wf (r : Record) (f : String) (v : Val) (h : WFRecord r) :
    WFRecord (quarantineField r f v) :=
  wf_dictDel _ _ (wf_dictSet _ _ _ h)

theorem cleanNumericStep_wf (r : Record) (g : String) (h : WFRecord r) :
    WFRecord (cleanNumericStep r g) := by
  unfold cleanNumericStep
  split
  · exact h
  · exact h
  · split
    · exact wf_dictSet _ _ _ h
    · exact quarantineField_wf _ _ _ h

theorem foldl_cleanNumericStep_lookup (l : List String) (r : Record) (f : String)
    (h : ∀ g ∈ l, f ≠ g ∧ f ≠ g ++ "_raw") :
    dictLookup (l.foldl cleanNumericStep r) f = dictLookup r f := by
  induction l generalizing r with
  | nil => rfl
  | cons g gs ih =>
    rw [List.foldl_cons, ih _ (fun g' hg' => h g' (List.mem_cons_of_mem g hg')),
      cleanNumericStep_lookup_ne r g f (h g (List.mem_cons_self g gs)).1
        (h g (List.mem_cons_self g gs)).2]

theorem foldl_wf (step : Record → String → Record)
    (hstep : ∀ r f, WFRecord r → WFRecord (step r f)) (l : List String) (r : Record)
    (h : WFRecord r) : WFRecord (l.foldl step r) := by
  induction l generalizing r with
  | nil => exact h
  | cons g gs ih => exact ih _ (hstep r g h)

theorem standardizeDateStep_wf (r : Record) (g : String) (h : WFRecord r) :
    WFRecord (standardizeDateStep r g) := by
  unfold standardizeDateStep quarantineField
  split
  · exact h
  · split
    · split <;>
        first
          | exact h
          | (split <;>
              first
                | exact wf_dictSet _ _ _ h
                | exact wf_dictDel _ _ (wf_dictSet _ _ _ h))
    · exact h

theorem cleanCodeStep_wf (r : Record) (g : String) (h : WFRecord r) :
    WFRecord (cleanCodeStep r g) := by
  unfold cleanCodeStep quarantineField
  split
  · exact h
  · split
    · dsimp only
      split
      · exact wf_dictSet _ _ _ h
      · exact wf_dictDel _ _ (wf_dictSet _ _ _ h)
    · exact h

theorem stored_numv_nonneg (x : NumV) : 0 ≤ (if x.isNeg then x.abs else x).toRat := by
  cases x with
  | nInt n =>
    by_cases hn : n < 0
    · simp [NumV.isNeg, NumV.abs, NumV.toRat, hn]
    · simp only [NumV.isNeg, NumV.toRat, decide_eq_true_eq, hn, if_false, if_neg hn]
      exact_mod_cast not_lt.1 hn
  | nFloat q =>
    by_cases hq : q < 0
    · simp [NumV.isNeg, NumV.abs, NumV.toRat, hq]
    · simp only [NumV.isNeg, NumV.toRat, decide_eq_true_eq, hq, if_false, if_neg hq]
      exact not_lt.1 hq

theorem numLookup_of_toVal (r : Record) (f : String) (y : NumV)
    (h : dictLookup r f = some y.toVal) : numLookup r f = some y.toRat := by
  cases y with
  | nInt n => simp [numLookup, h, NumV.toVal, NumV.toRat]
  | nFloat q => simp [numLookup, h, NumV.toVal, NumV.toRat]

theorem cleanNumericStep_goodAt (r : Record) (f : String) (hwf : WFRecord r) :
    ∀ q, numLookup (cleanNumericStep r f) f = some q → 0 ≤ q := by
  intro q
  unfold cleanNumericStep quarantineField
  split
  · rename_i hv
    intro hq
    rw [numLookup, hv] at hq
    cases hq
  · rename_i hv
    intro hq
    rw [numLookup, hv] at hq
    cases hq
  · split
    · rename_i x hx
      intro hq
      rw [show (if x.isNeg = true then x.abs.toVal else x.toVal)
          = (if x.isNeg = true then x.abs else x).toVal from (apply_ite NumV.toVal _ _ _).symm]
        at hq
      rw [numLookup_of_toVal _ f _ (dictLookup_dictSet_self r f _)] at hq
      cases hq
      exact stored_numv_nonneg x
    · intro hq
      rw [numLookup, dictLookup_dictDel_self _ f (wf_dictSet _ _ _ hwf)] at hq
      cases hq

theorem numeric_fold_goodAt (l : List String) (r : Record) (f : String) (hnd : l.Nodup)
    (hf : f ∈ l) (hr : ∀ g ∈ l, f ≠ g ++ "_raw") (hwf : WFRecord r) :
    ∀ q, numLookup (l.foldl cleanNumericStep r) f = some q → 0 ≤ q := by
  induction l generalizing r with
  | nil => cases hf
  | cons g gs ih =>
    rw [List.foldl_cons]
    by_cases hgf : g = f
    · subst hgf
      have hnot : g ∉ gs := (List.nodup_cons.1 hnd).1
      have hpres : dictLookup (gs.foldl cleanNumericStep (cleanNumericStep r g)) g
          = dictLookup (cleanNumericStep r g) g := by
        refine foldl_cleanNumericStep_lookup gs _ g (fun g' hg' => ⟨?_, ?_⟩)
        · exact fun hh => hnot (hh ▸ hg')
        · exact hr g' (List.mem_cons_of_mem g hg')
      intro q hq
      rw [numLookup, hpres, ← numLookup] at hq
      exact cleanNumericStep_goodAt r g hwf q hq
    · have hf' : f ∈ gs := by
        rcases List.mem_cons.1 hf with hh | hh
        · exact absurd hh.symm hgf
        · exact hh
      exact ih (cleanNumericStep r g) (List.nodup_cons.1 hnd).2 hf'
        (fun g' hg' => hr g' (List.mem_cons_of_mem g hg'))
        (cleanNumericStep_wf r g hwf)

theorem airlineUpperStep_lookup (r r' : Record) (g f : String)
    (h : airlineUpperStep r g = .ok r') (hne : f ≠ g) :
    dictLookup r' f = dictLookup r f := by
  unfold airlineUpperStep at h
  revert h
  split
  · intro h; cases h; rfl
  · split
    · split
      · intro h; cases h; exact dictLookup_dictSet_ne r g f _ hne
      · intro h; cases h
    · intro h; cases h; rfl

theorem cleanFlightNumber_lookup (r : Record) (f : String) (h1 : f ≠ "flight_number")
    (h2 : f ≠ "flight_number_raw") :
    dictLookup (cleanFlightNumber r) f = dictLookup r f := by
  unfold cleanFlightNumber quarantineField
  split
  · rfl
  · split
    · split
      · split
        · exact dictLookup_dictSet_ne r _ f _ h1
        · rw [dictLookup_dictDel_ne _ _ f h1,
            dictLookup_dictSet_ne r ("flight_number" ++ "_raw") f _ h2]
      · split
        · exact dictLookup_dictSet_ne r _ f _ h1
        · rw [dictLookup_dictDel_ne _ _ f h1,
            dictLookup_dictSet_ne r ("flight_number" ++ "_raw") f _ h2]
    · rfl

theorem clean_airline_info_lookup (r r' : Record) (f : String)
    (h : clean_airline_info r = .ok r') (h1 : f ≠ "flight_number")
    (h2 : f ≠ "flight_number_raw") (h3 : f ≠ "operating_airline")
    (h4 : f ≠ "marketing_airline") :
    dictLookup r' f = dictLookup r f := by
  unfold clean_airline_info at h
  revert h
  split
  · intro h; cases h
  · rename_i r2 ha
    intro h
    rw [airlineUpperStep_lookup r2 r' "marketing_airline" f h h4,
      airlineUpperStep_lookup _ r2 "operating_airline" f ha h3,
      cleanFlightNumber_lookup r f h1 h2]

theorem addDerivedDuration_lookup (r : Record) (f : String) (h : f ≠ "flight_duration") :
    dictLookup (addDerivedDuration r) f = dictLookup r f := by
  unfold addDerivedDuration
  split
  · split
    · split
      · exact dictLookup_dictSet_ne r _ f _ h
      · rfl
    · rfl
  · rfl

theorem addDerivedCabin_lookup (r : Record) (f : String) (h : f ≠ "cabin_class") :
    dictLookup (addDerivedCabin r) f = dictLookup r f := by
  unfold addDerivedCabin
  split
  · dsimp only
    split
    · exact dictLookup_dictSet_ne r _ f _ h
    · split
      · exact dictLookup_dictSet_ne r _ f _ h
      · split
        · exact dictLookup_dictSet_ne r _ f _ h
        · rfl
  · rfl

theorem addDerivedId_lookup (r r' : Record) (f : String) (h : addDerivedId r = .ok r')
    (hf : f ≠ "id") : dictLookup r' f = dictLookup r f := by
  unfold addDerivedId at h
  revert h
  split
  · intro h; cases h; rfl
  · split
    · intro h; cases h
    · intro h
      cases h
      exact dictLookup_dictSet_ne r _ f _ hf

theorem add_derived_fields_lookup (r r' : Record) (f : String)
    (h : add_derived_fields r = .ok r') (h1 : f ≠ "id") (h2 : f ≠ "flight_duration")
    (h3 : f ≠ "cabin_class") : dictLookup r' f = dictLookup r f := by
  unfold add_derived_fields at h
  revert h
  split
  · intro h; cases h
  · rename_i r1 hi
    intro h
    cases h
    rw [addDerivedCabin_lookup _ f h3, addDerivedDuration_lookup _ f h2,
      addDerivedId_lookup r r1 f hi h1]

theorem mem_clean_flight_data (rs : List Record) (r' : Record)
    (h : r' ∈ clean_flight_data rs) : ∃ r ∈ rs, cleanRecord r = .ok r' := by
  induction rs with
  | nil => cases h
  | cons r rest ih =>
    cases hc : cleanRecord r with
    | ok r'' =>
      rw [clean_flight_data_cons_ok r r'' rest hc] at h
      rcases List.mem_cons.1 h with hh | hh
      · exact ⟨r, List.mem_cons_self r rest, hh ▸ hc⟩
      · obtain ⟨x, hx, hcx⟩ := ih hh
        exact ⟨x, List.mem_cons_of_mem r hx, hcx⟩
    | error e =>
      rw [clean_flight_data_cons_error r rest e hc] at h
      obtain ⟨x, hx, hcx⟩ := ih h
      exact ⟨x, List.mem_cons_of_mem r hx, hcx⟩

/-- C8 (amended): every canonical numeric field processed by
`_clean_numeric_fields` is stored non-negative (negative parses are stored as
their absolute value), and every such field other than the derived
`flight_duration` is still non-negative in the final cleaned record; the
`flight_duration` that `_add_derived_fields` later synthesizes from the
timestamps is not so protected. -/
theorem clean_numeric_fields_nonneg :
    (∀ rs : List Record, (∀ r ∈ rs, WFRecord r) →
      ∀ r' ∈ clean_flight_data rs, ∀ f ∈ nonDerivedNumericFields,
        ∀ q, numLookup r' f = some q → 0 ≤ q) ∧
    (∀ (r : Record) (f : String), f ∈ numericFields → ∀ v x,
      dictLookup r f = some v → pyToNumber v = some x →
        dictLookup (clean_numeric_fields r) f = some ((if x.isNeg then x.abs else x).toVal) ∧
        0 ≤ (if x.isNeg then x.abs else x).toRat) := by
  constructor
  · intro rs hwf r' hr' f hf q hq
    obtain ⟨r, hr, hc⟩ := mem_clean_flight_data rs r' hr'
    have hkeys0 : ∀ f' ∈ nonDerivedNumericFields, f' ≠ "flight_number" ∧
        f' ≠ "flight_number_raw" ∧ f' ≠ "operating_airline" ∧
        f' ≠ "marketing_airline" ∧ f' ≠ "id" ∧ f' ≠ "flight_duration" ∧
        f' ≠ "cabin_class" := by decide
    have hkeys := hkeys0 f hf
    unfold cleanRecord at hc
    revert hc
    split
    · intro hc; cases hc
    · rename_i r4 ha
      intro hc
      have hl1 : dictLookup r' f = dictLookup r4 f :=
        add_derived_fields_lookup r4 r' f hc hkeys.2.2.2.2.1 hkeys.2.2.2.2.2.1
          hkeys.2.2.2.2.2.2
      have hl2 : dictLookup r4 f = dictLookup (clean_numeric_fields
          (clean_airport_codes (standardize_dates r))) f :=
        clean_airline_info_lookup _ r4 f ha hkeys.1 hkeys.2.1 hkeys.2.2.1 hkeys.2.2.2.1
      have hwf2 : WFRecord (clean_airport_codes (standardize_dates r)) :=
        foldl_wf cleanCodeStep cleanCodeStep_wf codeFields _
          (foldl_wf standardizeDateStep standardizeDateStep_wf dateFields _ (hwf r hr))
      have hfin0 : ∀ f' ∈ nonDerivedNumericFields, f' ∈ numericFields := by decide
      have hfin : f ∈ numericFields := hfin0 f hf
      have hraw0 : ∀ f' ∈ nonDerivedNumericFields, ∀ g ∈ numericFields,
          f' ≠ g ++ "_raw" := by decide
      have hraw : ∀ g ∈ numericFields, f ≠ g ++ "_raw" := hraw0 f hf
      have hgood := numeric_fold_goodAt numericFields
        (clean_airport_codes (standardize_dates r)) f (by decide) hfin hraw hwf2
      apply hgood q
      have hcongr : numLookup r' f = numLookup (clean_numeric_fields
          (clean_airport_codes (standardize_dates r))) f := by
        unfold numLookup
        rw [hl1, hl2]
      have hfold : numericFields.foldl cleanNumericStep
          (clean_airport_codes (standardize_dates r))
          = clean_numeric_fields (clean_airport_codes (standardize_dates r)) := rfl
      rw [hfold, ← hcongr]
      exact hq
  · intro r f hfin v x hv hx
    refine ⟨?_, stored_numv_nonneg x⟩
    have hnd : numericFields.Nodup := by decide
    have hraw0 : ∀ f' ∈ numericFields, ∀ g ∈ numericFields, f' ≠ g ++ "_raw" := by decide
    have hraw : ∀ g ∈ numericFields, f ≠ g ++ "_raw" := hraw0 f hfin
    unfold clean_numeric_fields
    have main : ∀ (l : List String) (r0 : Record), l.Nodup → f ∈ l →
        (∀ g ∈ l, f ≠ g ++ "_raw") → dictLookup r0 f = some v →
        dictLookup (l.foldl cleanNumericStep r0) f
          = some ((if x.isNeg then x.abs else x).toVal) := by
      intro l
      induction l with
      | nil => intro r0 _ hf _ _; cases hf
      | cons g gs ih =>
        intro r0 hnd0 hf0 hraw0 hv0
        rw [List.foldl_cons]
        by_cases hgf : g = f
        · subst hgf
          have hstep : dictLookup (cleanNumericStep r0 g) g
              = some ((if x.isNeg then x.abs else x).toVal) := by
            unfold cleanNumericStep
            rw [hv0]
            have hvn : v ≠ vNone := by
              intro hh
              subst hh
              simp [pyToNumber, pyFloatOfVal] at hx
            cases v
            case vNone => exact absurd rfl hvn
            all_goals {
              dsimp only
              rw [hx]
              split
              · rename_i x2 hx2
                cases hx2
                rw [show (if x.isNeg = true then x.abs.toVal else x.toVal)
                    = (if x.isNeg = true then x.abs else x).toVal
                  from (apply_ite NumV.toVal _ _ _).symm]
                exact dictLookup_dictSet_self r0 g _
              · rename_i hx2
                cases hx2
            }
          have hnot : g ∉ gs := (List.nodup_cons.1 hnd0).1
          rw [foldl_cleanNumericStep_lookup gs _ g
            (fun g' hg' => ⟨fun hh => hnot (hh ▸ hg'),
              hraw0 g' (List.mem_cons_of_mem g hg')⟩)]
          exact hstep
        · have hf' : f ∈ gs := by
            rcases List.mem_cons.1 hf0 with hh | hh
            · exact absurd hh.symm hgf
            · exact hh
          refine ih (cleanNumericStep r0 g) (List.nodup_cons.1 hnd0).2 hf'
            (fun g' hg' => hraw0 g' (List.mem_cons_of_mem g hg')) ?_
          rw [cleanNumericStep_lookup_ne r0 g f (fun hh => hgf hh.symm)
            (hraw0 g (List.mem_cons_self g gs))]
          exact hv0
    exact main numericFields r hnd hfin hraw hv

/-- C8 (witness): a negative float price is stored as its absolute value by
the numeric cleaning, and a cleaned record's price is non-negative. -/
theorem clean_numeric_fields_nonneg_witness :
    (0 : ℚ) ≤ 1999/100 ∧
      dictLookup (clean_numeric_fields [("price", vFloat (-5))]) "price"
        = some ((if (NumV.nFloat (-5)).isNeg then (NumV.nFloat (-5)).abs
            else NumV.nFloat (-5)).toVal) := by
  constructor
  · exact (clean_numeric_fields_nonneg).1 [[("price", vStr "$-19.99")]]
      (by intro r hr; rw [List.mem_singleton] at hr; subst hr; unfold WFRecord; decide)
      [("price", vFloat (1999/100)), ("id", vStr "")]
      (by
        have hc : clean_flight_data [[("price", vStr "$-19.99")]]
            = [[("price", vFloat (1999/100)), ("id", vStr "")]] := by
          with_unfolding_all rfl
        rw [hc]
        exact List.mem_singleton_self _)
      "price" (by decide) (1999/100) (by with_unfolding_all rfl)
  · exact ((clean_numeric_fields_nonneg).2 [("price", vFloat (-5))] "price" (by decide)
      (vFloat (-5)) (NumV.nFloat (-5)) rfl (by with_unfolding_all rfl)).1

theorem pyChoice_aircraftTypes (i : ℕ) : pyChoice aircraftTypes i = some (aircraftAt i) := by
  unfold pyChoice aircraftAt
  have hlt : i % aircraftTypes.length < aircraftTypes.length :=
    Nat.mod_lt _ (by decide)
  rw [List.getD_eq_getElem?_getD, ← List.get?_eq_getElem?]
  cases hg : aircraftTypes.get? (i % aircraftTypes.length) with
  | none =>
    have := List.get?_eq_none.1 hg
    omega
  | some ac => rfl

theorem dtLeB_day_le (a b : DayTime) (h : dtLeB a b = true) : a.day ≤ b.day := by
  unfold dtLeB at h
  rcases of_decide_eq_true h with h1 | h1
  · omega
  · omega

theorem mkFlight_props (d : FlightDraw) (cur : DayTime) (oa da : Airport)
    (hd : ValidFlightDraw d) :
    ∃ fl, mkFlight d cur oa da = some fl ∧
      0 ≤ fl.available_seats ∧ fl.available_seats ≤ fl.capacity ∧
      pyTrunc ((fl.capacity : ℚ) * (1/2)) ≤ fl.booked_seats ∧
      fl.booked_seats ≤ pyTrunc ((fl.capacity : ℚ) * (9/10)) ∧
      0 ≤ fl.price ∧ fl.departure_time.day = cur.day := by
  obtain ⟨h6, h22, hmin, hdh1, hdh6, hdm0, hdm59, hcapl, hcaph, hbl, hbh,
    hbp1, hbp2, hdist1, hdist2, hn1, hn2, hf1, hf2, hst, hsp⟩ := hd
  obtain ⟨a, ha, -⟩ := pyChoice_isSome airlinesList d.airlineIdx
    (by unfold airlinesList; exact List.cons_ne_nil _ _)
  obtain ⟨st, hstc, -⟩ := pyChoice_isSome ["scheduled", "delayed", "cancelled"] d.statusIdx
    (List.cons_ne_nil _ _)
  obtain ⟨sp, hspc, -⟩ := pyChoice_isSome [(0 : ℤ), 1, 2] d.stopsIdx (List.cons_ne_nil _ _)
  have hacm : aircraftAt d.aircraftIdx ∈ aircraftTypes :=
    pyChoice_mem _ _ _ (pyChoice_aircraftTypes d.aircraftIdx)
  have hc0 : (0 : ℤ) ≤ d.capacity := by
    have hlo := (show ∀ ac ∈ aircraftTypes, (0 : ℤ) ≤ ac.capLo by decide) _ hacm
    omega
  have hc0q : (0 : ℚ) ≤ (d.capacity : ℚ) := by exact_mod_cast hc0
  have hguard : pyTrunc ((d.capacity : ℚ) * (1/2)) ≤ pyTrunc ((d.capacity : ℚ) * (9/10)) :=
    pyTrunc_mono_of_nonneg _ _ (mul_nonneg hc0q (by norm_num))
      (mul_le_mul_of_nonneg_left (by norm_num) hc0q)
  have h910 : pyTrunc ((d.capacity : ℚ) * (9/10)) ≤ d.capacity := by
    rw [pyTrunc_of_nonneg _ (mul_nonneg hc0q (by norm_num))]
    calc ⌊(d.capacity : ℚ) * (9/10)⌋ ≤ ⌊(d.capacity : ℚ)⌋ :=
          Int.floor_le_floor (by nlinarith)
      _ = d.capacity := Int.floor_intCast _
  have hb0 : 0 ≤ pyTrunc ((d.capacity : ℚ) * (1/2)) :=
    pyTrunc_nonneg _ (mul_nonneg hc0q (by norm_num))
  unfold mkFlight
  rw [ha, pyChoice_aircraftTypes d.aircraftIdx]
  simp only [Option.bind_eq_bind, Option.some_bind]
  unfold pyRandint
  rw [if_pos (le_trans hcapl hcaph)]
  simp only [Option.some_bind]
  rw [if_pos hguard]
  simp only [Option.some_bind]
  rw [if_pos (by norm_num : (100 : ℤ) ≤ 9999)]
  simp only [Option.some_bind]
  rw [hstc]
  simp only [Option.some_bind]
  rw [hspc]
  simp only [Option.some_bind, pure]
  refine ⟨_, rfl, ?_, ?_, hbl, hbh, ?_, rfl⟩
  · simp only []
    omega
  · simp only []
    omega
  · exact pyRound_nonneg _ _ (by nlinarith)

theorem mapM_mkFlight_props (orc : FlightOracle) (hv : ValidFlightOracle orc)
    (dayIdx : ℕ) (cur : DayTime) (oa da : Airport) (js : List ℕ) :
    ∃ lst, js.mapM (fun j => mkFlight (orc.fd dayIdx j) cur oa da) = some lst ∧
      ∀ fl ∈ lst, 0 ≤ fl.available_seats ∧ fl.available_seats ≤ fl.capacity ∧
        pyTrunc ((fl.capacity : ℚ) * (1/2)) ≤ fl.booked_seats ∧
        fl.booked_seats ≤ pyTrunc ((fl.capacity : ℚ) * (9/10)) ∧
        0 ≤ fl.price ∧ fl.departure_time.day = cur.day := by
  induction js with
  | nil => exact ⟨[], rfl, by simp⟩
  | cons j js ih =>
    obtain ⟨fl, hfl, hp⟩ := mkFlight_props (orc.fd dayIdx j) cur oa da (hv.2 dayIdx j)
    obtain ⟨lst, hlst, hps⟩ := ih
    refine ⟨fl :: lst, ?_, ?_⟩
    · rw [List.mapM_cons, hfl, hlst]
      rfl
    · intro x hx
      rcases List.mem_cons.1 hx with hh | hh
      · exact hh ▸ hp
      · exact hps x hh

theorem flightsLoop_props (orc : FlightOracle) (hv : ValidFlightOracle orc)
    (dateFrom dateTo : DayTime) (limit : ℕ) (oa da : Airport) :
    ∀ (fuel : ℕ) (cur : DayTime) (dayIdx : ℕ) (acc : List Flight),
      dateFrom.day ≤ cur.day →
      (∀ fl ∈ acc, FlightConsistent dateFrom dateTo fl) →
      ∃ l, flightsLoop orc dateTo limit oa da fuel cur dayIdx acc = some l ∧
        ∀ fl ∈ l, FlightConsistent dateFrom dateTo fl := by
  intro fuel
  induction fuel with
  | zero => exact fun cur dayIdx acc _ hacc => ⟨acc, rfl, hacc⟩
  | succ fuel ih =>
    intro cur dayIdx acc hday hacc
    unfold flightsLoop
    by_cases hif : dtLeB cur dateTo = true ∧ acc.length < limit
    · rw [if_pos hif]
      have hcurle : cur.day ≤ dateTo.day := dtLeB_day_le cur dateTo hif.1
      have hn : pyRandint 1 5 (orc.perDay dayIdx) = some (orc.perDay dayIdx) := by
        unfold pyRandint
        rw [if_pos (by norm_num : (1 : ℤ) ≤ 5)]
      rw [hn]
      simp only [Option.bind_eq_bind, Option.some_bind]
      obtain ⟨lst, hlst, hps⟩ := mapM_mkFlight_props orc hv dayIdx cur oa da
        ((List.range (orc.perDay dayIdx).toNat).take (limit - acc.length))
      rw [hlst]
      simp only [Option.some_bind]
      refine ih ⟨cur.day + 1, cur.sec⟩ (dayIdx + 1) (acc ++ lst) (by simp; omega) ?_
      intro fl hfl
      rcases List.mem_append.1 hfl with hh | hh
      · exact hacc fl hh
      · obtain ⟨p1, p2, p3, p4, p5, p6⟩ := hps fl hh
        exact ⟨p1, p2, p3, p4, p5, by omega, by omega⟩
    · rw [if_neg hif]
      exact ⟨acc, rfl, hacc⟩

theorem resolveAirport_some (code : Option String) (pick : ℕ) :
    ∃ a, resolveAirport code pick australianAirports = some a ∧ a ∈ australianAirports := by
  unfold resolveAirport
  cases hf : code.bind (fun c => australianAirports.find? (fun a => a.iata = c)) with
  | some a =>
    refine ⟨a, rfl, ?_⟩
    cases code with
    | none => cases hf
    | some c => exact List.mem_of_find?_eq_some (by simpa using hf)
  | none =>
    obtain ⟨a, ha, ham⟩ := pyChoice_isSome australianAirports pick
      (by unfold australianAirports; exact List.cons_ne_nil _ _)
    exact ⟨a, ha, ham⟩

theorem filter_other_airports_ne_nil (a : Airport) (h : a ∈ australianAirports) :
    australianAirports.filter (fun b => b.iata ≠ a.iata) ≠ [] := by
  have hall : ∀ a0 ∈ australianAirports,
      australianAirports.filter (fun b => b.iata ≠ a0.iata) ≠ [] := by
    decide
  exact hall a h

theorem mapM_some_of_all {α β : Type} (f : α → Option β) (l : List α)
    (h : ∀ a ∈ l, ∃ b, f a = some b) : ∃ bs, l.mapM f = some bs := by
  induction l with
  | nil => exact ⟨[], rfl⟩
  | cons a l ih =>
    obtain ⟨b, hb⟩ := h a (List.mem_cons_self a l)
    obtain ⟨bs, hbs⟩ := ih (fun x hx => h x (List.mem_cons_of_mem a hx))
    refine ⟨b :: bs, ?_⟩
    rw [List.mapM_cons, hb, hbs]
    rfl

/-- C5 (amended): the synthetic generators are total except for the unknown
airport code of `get_airport_analytics`, and their flight and market-data
outputs are internally consistent — bookings within the floored 50–90 % band
of capacity (so available seats lie between zero and capacity), non-negative
prices, and dates within the requested range. -/
theorem mock_provider_consistency :
    (∀ (origin destination : Option String) (dateFrom dateTo : DayTime) (limit : ℕ)
        (orc : FlightOracle), ValidFlightOracle orc →
      ∃ l, mock_get_flights origin destination dateFrom dateTo limit orc = some l ∧
        ∀ fl ∈ l, FlightConsistent dateFrom dateTo fl) ∧
    (∀ (origin destination : Option String) (days : ℕ) (today : ℤ) (orc : MarketOracle),
        ValidMarketOracle orc →
      ∃ l, mock_get_market_data origin destination days today orc = some l ∧
        ∀ p ∈ l, MarketPointConsistent today days p) ∧
    mock_get_airports = australianAirports ∧
    (∀ (code : String) (days : ℕ) (today : ℤ) (orc : AnalyticsOracle),
        code ∈ australianAirports.map Airport.iata →
      (mock_get_airport_analytics code days today orc).isSome = true) := by
  refine ⟨?_, ?_, rfl, ?_⟩
  · intro origin destination dateFrom dateTo limit orc hv
    unfold mock_get_flights
    obtain ⟨oa, hoa, hoam⟩ := resolveAirport_some origin orc.originPick
    rw [hoa]
    simp only [Option.bind_eq_bind, Option.some_bind]
    cases hdb : destination.bind (fun c => australianAirports.find? (fun a => a.iata = c)) with
    | some da =>
      exact flightsLoop_props orc hv dateFrom dateTo limit oa da _ dateFrom 0 [] le_rfl
        (by simp)
    | none =>
      obtain ⟨da, hda2, -⟩ := pyChoice_isSome
        (australianAirports.filter (fun b => b.iata ≠ oa.iata)) orc.destPick
        (filter_other_airports_ne_nil oa hoam)
      rw [hda2]
      simp only [Option.some_bind]
      exact flightsLoop_props orc hv dateFrom dateTo limit oa da _ dateFrom 0 [] le_rfl
        (by simp)
  · intro origin destination days today orc hv
    unfold mock_get_market_data
    obtain ⟨oa, hoa, hoam⟩ := resolveAirport_some origin orc.originPick
    rw [hoa]
    simp only [Option.bind_eq_bind, Option.some_bind]
    have tail : ∀ da : Airport, ∀ p ∈ sortLe (fun p q => decide (p.date ≤ q.date))
        ((List.range days).map fun day => mkMarketPoint today day oa da (orc.md day)),
        MarketPointConsistent today days p := by
      intro da p hp
      rw [mem_sortLe, List.mem_map] at hp
      obtain ⟨day, hdayr, hday⟩ := hp
      have hdaylt : (day : ℤ) < (days : ℤ) := by exact_mod_cast List.mem_range.1 hdayr
      obtain ⟨hb1, hb2, hs1, hs2, hc1, hc2, hp1, hp2, hm1, hm2, hx1, hx2, hl1, hl2⟩ := hv day
      subst hday
      have havg : (0 : ℚ) ≤ pyRound ((orc.md day).uPrice *
          (if 5 ≤ pyWeekday (today - (day : ℤ)) then (6/5 : ℚ) else 1)) 2 := by
        refine pyRound_nonneg _ _ (mul_nonneg (by linarith) ?_)
        split <;> norm_num
      refine ⟨havg, ?_, ?_, by simp only [mkMarketPoint]; omega,
        by simp only [mkMarketPoint]; omega⟩
      · exact pyRound_nonneg _ _ (mul_nonneg havg (by linarith))
      · exact pyRound_nonneg _ _ (mul_nonneg havg (by linarith))
    cases hdb : destination.bind (fun c => australianAirports.find? (fun a => a.iata = c)) with
    | some da => exact ⟨_, rfl, tail da⟩
    | none =>
      obtain ⟨da, hda2, -⟩ := pyChoice_isSome
        (australianAirports.filter (fun b => b.iata ≠ oa.iata)) orc.destPick
        (filter_other_airports_ne_nil oa hoam)
      rw [hda2]
      simp only [Option.some_bind]
      exact ⟨_, rfl, tail da⟩
  · intro code days today orc hcode
    unfold mock_get_airport_analytics
    have hfind : ∃ a, australianAirports.find? (fun a => a.iata = code) = some a := by
      rw [List.mem_map] at hcode
      obtain ⟨a, ham, ha⟩ := hcode
      have : (australianAirports.find? (fun a => a.iata = code)).isSome := by
        rw [List.find?_isSome]
        exact ⟨a, ham, by simp [ha]⟩
      exact Option.isSome_iff_exists.1 this
    obtain ⟨a, hfind⟩ := hfind
    rw [hfind]
    simp only [Option.bind_eq_bind, Option.some_bind]
    have hsample : ∃ dests, pySample (australianAirports.filter (fun b => b.iata ≠ code))
        (min 5 (australianAirports.filter (fun b => b.iata ≠ code)).length)
        orc.samplePick = some dests := by
      unfold pySample
      rw [if_pos (Nat.min_le_right _ _)]
      exact ⟨_, rfl⟩
    obtain ⟨dests, hsample⟩ := hsample
    rw [hsample]
    simp only [Option.some_bind]
    have hr1 : pyRandint 1000 5000 orc.totalFlights = some orc.totalFlights := by
      unfold pyRandint
      rw [if_pos (by norm_num : (1000 : ℤ) ≤ 5000)]
    have hr2 : pyRandint 100000 500000 orc.totalPax = some orc.totalPax := by
      unfold pyRandint
      rw [if_pos (by norm_num : (100000 : ℤ) ≤ 500000)]
    rw [hr1]
    simp only [Option.some_bind]
    rw [hr2]
    simp only [Option.some_bind]
    have hfun : ∀ pr : ℕ × Airport,
        pyRandint 50 200 (orc.destCount pr.1) = some (orc.destCount pr.1) := fun pr => by
      unfold pyRandint
      rw [if_pos (by norm_num : (50 : ℤ) ≤ 200)]
    simp only [hfun, Option.bind_eq_bind, Option.some_bind, Option.pure_def]
    obtain ⟨tops, htops⟩ := mapM_some_of_all _ dests.enum (fun pr _ => ⟨_, rfl⟩)
    rw [htops]
    simp only [Option.some_bind]
    rfl

/-- C5 (witness): the generator parts applied at concrete arguments and
oracles inside the documented ranges. -/
theorem mock_provider_consistency_witness :
    (mock_get_flights Option.none Option.none ⟨0, 0⟩ ⟨1, 0⟩ 10 witnessFlightOracle).isSome
        = true ∧
      (mock_get_market_data Option.none Option.none 1 0 cexMarketOracle).isSome = true ∧
      (mock_get_airport_analytics "SYD" 30 0 witnessAnalyticsOracle).isSome = true := by
  refine ⟨?_, ?_, ?_⟩
  · obtain ⟨l, hl, -⟩ := mock_provider_consistency.1 Option.none Option.none ⟨0, 0⟩ ⟨1, 0⟩ 10
      witnessFlightOracle
      (by
        refine ⟨fun i => by norm_num [witnessFlightOracle], fun i j => ?_⟩
        show ValidFlightDraw witnessFlightDraw
        unfold ValidFlightDraw
        with_unfolding_all decide)
    rw [hl]
    rfl
  · obtain ⟨l, hl, -⟩ := mock_provider_consistency.2.1 Option.none Option.none 1 0
      cexMarketOracle
      (by
        intro i
        norm_num [cexMarketOracle, cexMarketDraw])
    rw [hl]
    rfl
  · exact mock_provider_consistency.2.2.2 "SYD" 30 0 witnessAnalyticsOracle (by decide)

/-- C6 (counterexample): a first market-data point with `search_volume = 40`
and `booking_count = 10` carries `conversion_rate = 25.0` — the rounded
percentage `booking/search * 100` — not the claimed ratio `0.25`. -/
theorem market_conversion_rate_is_percent :
    ((mock_get_market_data Option.none Option.none 1 0 cexMarketOracle).getD []).map
          MarketPoint.conversion_rate = [25] ∧
      ((mock_get_market_data Option.none Option.none 1 0 cexMarketOracle).getD []).map
          MarketPoint.booking_count = [10] ∧
      ((mock_get_market_data Option.none Option.none 1 0 cexMarketOracle).getD []).map
          MarketPoint.search_volume = [40] ∧
      ¬ ((25 : ℚ) = (10 : ℚ) / 40) := by
  refine ⟨?_, ?_, ?_, by norm_num⟩ <;> with_unfolding_all decide

end AirlineMarket
